import Mathlib

/-! A verification development for the `hue` bridge controller.

Shallow embedding of `bridge.go`, `resolver.go` and `lights.go`.

* Go functions with a pointer receiver that assign to the receiver are
  state-passing functions returning a `Step`; the others return a `Run`.
  Both record the externally visible effects (resolver start-up, browse,
  HTTP requests) in a trace, and distinguish an ordinary return from a
  Go panic.
* The world outside the package (environment variable, zeroconf resolver,
  HTTP transport, JSON decoding of the bridge response, map iteration
  order, float formatting) is an explicit `Env`.
* Go `int` is the 64-bit two's-complement integer: an `Int` together with
  `wrapInt` where the source increments it.
* A Go string that reaches the JSON encoder (the string fields of `State`
  and `LightState`) is a byte sequence, `GoString`, which need not be valid
  UTF-8; strings that are only copied are `String`.
-/

namespace Hue

/-! ## Go runtime values -/

/-- An error value made outside this package (by `net/http`, by `zeroconf`,
by the JSON decoder), identified by its message. -/
structure ExtError where
  msg : String
  deriving DecidableEq, Repr

/-- Go error values. `errorsNew` is a value made by `errors.New` inside this
package and `unsupportedValue` is the `*json.UnsupportedValueError` of the
encoder; `external` wraps every error that comes from the environment, so
that no such error is ever equal to one made by the package. -/
inductive GoError where
  | errorsNew (msg : String)
  | unsupportedValue (what : String)
  | unmarshalType (field : String)
  | external (e : ExtError)
  deriving DecidableEq, Repr

/-- An error of the environment seen as a Go error value. -/
def liftExt {α : Type} : Except ExtError α → Except GoError α
  | .error e => .error (.external e)
  | .ok a => .ok a

/-- The value carried by a Go panic: an error passed to the builtin, or a
runtime error raised by the language itself. -/
inductive PanicValue where
  | error (e : GoError)
  | runtime (msg : String)
  deriving DecidableEq, Repr

/-- How a Go call ends: it returns a value or it panics. -/
inductive Outcome (α : Type) where
  | ret (a : α)
  | panic (v : PanicValue)
  deriving DecidableEq, Repr

/-- Largest Go `int` plus one (64-bit platforms). -/
def intBound : Int := 9223372036854775808

/-- Two's-complement wrap-around of a mathematical integer into Go `int`. -/
def wrapInt (x : Int) : Int := (x + intBound) % (2 * intBound) - intBound

/-- An IEEE-754 binary64 value, by its three bit fields. -/
structure Float64 where
  sign : Bool
  exponent : Fin 2048
  mantissa : Fin 4503599627370496
  deriving DecidableEq, Repr

/-- Neither an infinity nor a NaN. -/
def Float64.isFinite (f : Float64) : Bool := f.exponent.val != 2047

/-- The text `strconv.FormatFloat(f, 103, -1, 64)` gives for a value that is
not finite; used in the message of `json.UnsupportedValueError`. -/
def Float64.nonFiniteName (f : Float64) : String :=
  if f.mantissa.val != 0 then "NaN" else if f.sign then "-Inf" else "+Inf"

/-- A quiet NaN. -/
def Float64.nan : Float64 := ⟨false, 2047, 2251799813685248⟩

/-- Positive zero. -/
def Float64.zero : Float64 := ⟨false, 0, 0⟩

/-! ## Go strings and UTF-8 -/

/-- A Go `string`: any sequence of bytes. -/
abbrev GoString := List (Fin 256)

/-- The byte with the given value (taken modulo 256). -/
def byte (n : Nat) : Fin 256 := ⟨n % 256, Nat.mod_lt _ (by decide)⟩

/-- A UTF-8 continuation byte, `0x80` to `0xBF`. -/
def isCont (b : Fin 256) : Bool := decide (0x80 ≤ b.val ∧ b.val ≤ 0xBF)

/-- Lowest second byte accepted after the first byte `b0` of a sequence of
three or four bytes (excludes overlong forms). -/
def secondLow (b0 : Nat) : Nat := if b0 = 0xE0 then 0xA0 else if b0 = 0xF0 then 0x90 else 0x80

/-- Highest second byte accepted after the first byte `b0` (excludes
surrogates and code points above `0x10FFFF`). -/
def secondHigh (b0 : Nat) : Nat := if b0 = 0xED then 0x9F else if b0 = 0xF4 then 0x8F else 0xBF

/-- The function `utf8.DecodeRuneInString` on a non-empty prefix: the code
point and the number of bytes of the well-formed sequence at the head, or
`none` where Go returns `RuneError` with size 1. -/
def decodeRune : GoString → Option (Nat × Nat)
  | [] => none
  | b0 :: rest =>
    if b0.val < 0x80 then some (b0.val, 1)
    else if 0xC2 ≤ b0.val ∧ b0.val ≤ 0xDF then
      match rest with
      | b1 :: _ =>
        if isCont b1 then some (b0.val % 32 * 64 + b1.val % 64, 2) else none
      | _ => none
    else if 0xE0 ≤ b0.val ∧ b0.val ≤ 0xEF then
      match rest with
      | b1 :: b2 :: _ =>
        if secondLow b0.val ≤ b1.val ∧ b1.val ≤ secondHigh b0.val ∧ isCont b2 then
          some (b0.val % 16 * 4096 + b1.val % 64 * 64 + b2.val % 64, 3)
        else none
      | _ => none
    else if 0xF0 ≤ b0.val ∧ b0.val ≤ 0xF4 then
      match rest with
      | b1 :: b2 :: b3 :: _ =>
        if secondLow b0.val ≤ b1.val ∧ b1.val ≤ secondHigh b0.val ∧ isCont b2 ∧ isCont b3 then
          some (b0.val % 8 * 262144 + b1.val % 64 * 4096 + b2.val % 64 * 64 + b3.val % 64, 4)
        else none
      | _ => none
    else none

/-- The UTF-8 encoding of a code point. -/
def encodeCodePoint (n : Nat) : GoString :=
  if n < 0x80 then [byte n]
  else if n < 0x800 then [byte (0xC0 + n / 64), byte (0x80 + n % 64)]
  else if n < 0x10000 then
    [byte (0xE0 + n / 4096), byte (0x80 + n / 64 % 64), byte (0x80 + n % 64)]
  else [byte (0xF0 + n / 262144), byte (0x80 + n / 4096 % 64), byte (0x80 + n / 64 % 64),
    byte (0x80 + n % 64)]

/-- One element of the content of a JSON string written by the encoder: a
character, or the replacement written for a byte that is not part of a
well-formed UTF-8 sequence. The replacement denotes U+FFFD. -/
inductive StrItem where
  | rune (c : Char)
  | invalid
  deriving DecidableEq, Repr

/-- The scan of the encoder over a Go string: each well-formed sequence is
one character, each other byte is one replacement. `skip` counts the bytes
of the current sequence still to be passed over. -/
def decodeItems : Nat → GoString → List StrItem
  | _, [] => []
  | skip + 1, _ :: tail => decodeItems skip tail
  | 0, b :: tail =>
    match decodeRune (b :: tail) with
    | some (cp, size) => .rune (Char.ofNat cp) :: decodeItems (size - 1) tail
    | none => .invalid :: decodeItems 0 tail

/-- The scan of `utf8.ValidString`; `skip` as in `decodeItems`. -/
def validFrom : Nat → GoString → Bool
  | _, [] => true
  | skip + 1, _ :: tail => validFrom skip tail
  | 0, b :: tail =>
    match decodeRune (b :: tail) with
    | some (_, size) => validFrom (size - 1) tail
    | none => false

/-- The function `utf8.ValidString`. -/
def validUTF8 (g : GoString) : Bool := validFrom 0 g

/-- The bytes the decoder stores for one element of a JSON string. -/
def itemBytes : StrItem → GoString
  | .rune c => encodeCodePoint c.toNat
  | .invalid => [0xEF, 0xBF, 0xBD]

/-- The Go string the decoder stores for a JSON string. -/
def itemsBytes : List StrItem → GoString
  | [] => []
  | item :: rest => itemBytes item ++ itemsBytes rest

/-- What a Go string becomes on its way through the encoder and back: every
byte outside a well-formed sequence is replaced by the bytes of U+FFFD. -/
def coerceUTF8 (g : GoString) : GoString := itemsBytes (decodeItems 0 g)

/-- The Go string holding the UTF-8 bytes of a text. -/
def GoString.ofText (s : String) : GoString := itemsBytes (s.toList.map .rune)

/-! ## `net.IP` and its `String` method -/

/-- A `net.IP`: a byte slice. -/
structure IP where
  bytes : List (Fin 256)
  deriving DecidableEq, Repr

/-- Two lower-case hexadecimal digits of a byte. -/
def hexByte (b : Nat) : String :=
  String.mk [Nat.digitChar (b / 16 % 16), Nat.digitChar (b % 16)]

/-- Lower-case hexadecimal without leading zeros. -/
def hexNat (n : Nat) : String := String.mk (Nat.toDigits 16 n)

/-- Dotted decimal of four bytes. -/
def dotted (bs : List (Fin 256)) : String :=
  ".".intercalate (bs.map fun b => toString b.val)

/-- The method `IP.To4`: the four-byte form of an IPv4 address, if it is one. -/
def IP.To4 (ip : IP) : Option (List (Fin 256)) :=
  if ip.bytes.length = 4 then some ip.bytes
  else if ip.bytes.length = 16 ∧ (ip.bytes.take 10).all (fun b => b.val == 0)
      ∧ (ip.bytes.drop 10).take 2 = [255, 255] then some (ip.bytes.drop 12)
  else none

/-- The eight 16-bit groups of a 16-byte address. -/
def groups16 : List (Fin 256) → List Nat
  | hi :: lo :: rest => (hi.val * 256 + lo.val) :: groups16 rest
  | _ => []

/-- Length of the run of zero groups at the head of a list. -/
def zeroRun : List Nat → Nat
  | 0 :: rest => zeroRun rest + 1
  | _ => 0

/-- Start and length of the first longest run of zero groups, scanning from
position `i`, given the best run found so far. -/
def longestZeroRun : List Nat → Nat → Nat × Nat → Nat × Nat
  | [], _, best => best
  | g :: rest, i, best =>
    let n := zeroRun (g :: rest)
    longestZeroRun rest (i + 1) (if n > best.2 then (i, n) else best)

/-- Text form of a 16-byte address that is not an IPv4 address. -/
def ipv6Text (bs : List (Fin 256)) : String :=
  let gs := groups16 bs
  let run := longestZeroRun gs 0 (0, 0)
  let hex := fun (l : List Nat) => ":".intercalate (l.map hexNat)
  if run.2 ≥ 2 then hex (gs.take run.1) ++ "::" ++ hex (gs.drop (run.1 + run.2))
  else hex gs

/-- The method `IP.String`, which `fmt` uses for the verb `%s`. -/
def IP.String (ip : IP) : String :=
  if ip.bytes.length = 0 then "<nil>"
  else if ip.bytes.length ≠ 4 ∧ ip.bytes.length ≠ 16 then
    "?" ++ String.join (ip.bytes.map fun b => hexByte b.val)
  else match ip.To4 with
    | some p4 => dotted p4
    | none => ipv6Text ip.bytes

/-- The verb `%d` applied to a Go `int`. -/
def fmtInt (n : Int) : String := toString n

/-! ## `lights.go`: the data model -/

/-- A Go slice of `float64`: `none` is the nil slice. -/
abbrev FloatSlice := Option (List Float64)

/-- State represents the current state of a light. Fields of type `uint8`
and `uint16` are natural numbers below 256 and 65536. -/
structure State where
  On : Bool
  Brightness : Nat
  Hue : Nat
  Saturation : Nat
  Effect : GoString
  XY : FloatSlice
  ColorTemp : Nat
  Alert : GoString
  ColorMode : GoString
  Mode : GoString
  Reachable : Bool
  deriving DecidableEq, Repr

/-- SWUpdate represents the software update information of a light. -/
structure SWUpdate where
  State : String
  LastInstall : String
  deriving DecidableEq, Repr

/-- The anonymous struct `Capabilities.Control`. -/
structure Control where
  MinDimLevel : Nat
  MaxLumen : Nat
  ColorGamutType : String
  ColorGamut : Option (List FloatSlice)
  ColorTempRange : Option (List (String × Int))
  deriving DecidableEq, Repr

/-- The anonymous struct `Capabilities.Streaming`. -/
structure Streaming where
  Renderer : Bool
  Proxy : Bool
  deriving DecidableEq, Repr

/-- Capabilities represents the capabilities of a light. -/
structure Capabilities where
  Certified : Bool
  Control : Control
  Streaming : Streaming
  deriving DecidableEq, Repr

/-- The anonymous struct `Config.Startup`. -/
structure Startup where
  Mode : String
  Configured : Bool
  deriving DecidableEq, Repr

/-- Config represents the configuration of a light. -/
structure Config where
  Archetype : String
  Function : String
  Direction : String
  Startup : Startup
  deriving DecidableEq, Repr

/-- Light represents a Hue light. -/
structure Light where
  State : State
  SWUpdate : SWUpdate
  Type_ : String
  Name : String
  ModelID : String
  Manufacturer : String
  ProductName : String
  Capabilities : Capabilities
  Config : Config
  UniqueID : String
  SWVersion : String
  SWConfigID : String
  ProductID : String
  deriving DecidableEq, Repr

/-- LightState represents the desired state to be set for a light. Every
field is a pointer: `none` is the nil pointer. -/
structure LightState where
  On : Option Bool
  Brightness : Option Nat
  Hue : Option Nat
  Saturation : Option Nat
  Effect : Option GoString
  XY : Option FloatSlice
  ColorTemp : Option Nat
  Alert : Option GoString
  ColorMode : Option GoString
  Mode : Option GoString
  Reachable : Option Bool
  deriving DecidableEq, Repr

/-- The zero value of `LightState`: every pointer nil. -/
def LightState.zero : LightState :=
  ⟨none, none, none, none, none, none, none, none, none, none, none⟩

/-- The zero value of `State`. -/
def State.zero : State := ⟨false, 0, 0, 0, [], none, 0, [], [], [], false⟩

/-- The `LightState` in which every field points to the corresponding field
of a `State`. -/
def LightState.ofState (st : State) : LightState :=
  { On := some st.On, Brightness := some st.Brightness, Hue := some st.Hue,
    Saturation := some st.Saturation, Effect := some st.Effect, XY := some st.XY,
    ColorTemp := some st.ColorTemp, Alert := some st.Alert,
    ColorMode := some st.ColorMode, Mode := some st.Mode,
    Reachable := some st.Reachable }

/-! ## `encoding/json` on the types of this package

A JSON document is kept as a value tree; `renderObject` writes the bytes
`json.Marshal` produces for it. A number literal inside an array of floats
is represented by the `float64` it denotes: the encoder writes the shortest
literal that parses back to the same `float64`. -/

/-- The JSON values that occur under the keys of `State` and `LightState`. -/
inductive JValue where
  | null
  | bool (b : Bool)
  | int (n : Int)
  | str (items : List StrItem)
  | floatArr (xs : List Float64)
  deriving DecidableEq, Repr

/-- A JSON object: its members in document order. -/
abbrev JObject := List (String × JValue)

/-- The escape sequence or the character itself that the encoder writes for
one character of a string (HTML escaping on, as in `json.Marshal`). -/
def quoteChar (c : Char) : String :=
  let n := c.toNat
  if n = 0x22 then "\\\""
  else if n = 0x5c then "\\\\"
  else if n = 0x08 then "\\b"
  else if n = 0x0c then "\\f"
  else if n = 0x0a then "\\n"
  else if n = 0x0d then "\\r"
  else if n = 0x09 then "\\t"
  else if n < 0x20 ∨ n = 0x3c ∨ n = 0x3e ∨ n = 0x26 then "\\u00" ++ hexByte n
  else if n = 0x2028 ∨ n = 0x2029 then "\\u" ++ hexNat n
  else String.singleton c

/-- A JSON string literal for a key (a struct tag or a map key of this
package: plain text). -/
def quoteString (s : String) : String :=
  "\"" ++ String.join (s.toList.map quoteChar) ++ "\""

/-- What the encoder writes for one element of a string: the character
(escaped where `quoteChar` says so), or the six characters of the escape
for U+FFFD in place of an invalid byte. -/
def quoteItem : StrItem → String
  | .rune c => quoteChar c
  | .invalid => "\\ufffd"

/-- The JSON string literal the encoder writes for a Go string value. -/
def quoteItems (items : List StrItem) : String :=
  "\"" ++ String.join (items.map quoteItem) ++ "\""

/-- The bytes of a JSON value; `fmtFloat` is `strconv.AppendFloat`. -/
def renderValue (fmtFloat : Float64 → String) : JValue → String
  | .null => "null"
  | .bool true => "true"
  | .bool false => "false"
  | .int n => fmtInt n
  | .str items => quoteItems items
  | .floatArr xs => "[" ++ ",".intercalate (xs.map fmtFloat) ++ "]"

/-- The bytes of a JSON object, compact, members in order. -/
def renderObject (fmtFloat : Float64 → String) (o : JObject) : String :=
  "\x7b" ++ ",".intercalate (o.map fun kv => quoteString kv.1 ++ ":" ++ renderValue fmtFloat kv.2)
    ++ "\x7d"

/-- Encoding of a `[]float64`: a nil slice is `null`; a value that is not
finite makes the encoder fail with `UnsupportedValueError`. -/
def encodeFloatSlice : FloatSlice → Except GoError JValue
  | none => .ok .null
  | some xs =>
    match xs.find? (fun f => !f.isFinite) with
    | some bad => .error (.unsupportedValue bad.nonFiniteName)
    | none => .ok (.floatArr xs)

/-- A struct field tagged `omitempty` whose type is a pointer: left out when
the pointer is nil, otherwise the member `key: value pointed to`. -/
def omitemptyPtr {α : Type} (key : String) (enc : α → Except GoError JValue) :
    Option α → Except GoError JObject
  | none => .ok []
  | some a => do
    let v ← enc a
    pure [(key, v)]

/-- Encoding of a `bool`. -/
def encodeBool (b : Bool) : Except GoError JValue := .ok (.bool b)

/-- Encoding of a `uint8` or `uint16`: its decimal literal. -/
def encodeUint (n : Nat) : Except GoError JValue := .ok (.int (Int.ofNat n))

/-- The JSON string the encoder writes for a Go string: the string coerced
to valid UTF-8, every invalid byte replaced by U+FFFD. -/
def jsonString (g : GoString) : JValue := .str (decodeItems 0 g)

/-- Encoding of a `string`. -/
def encodeString (t : GoString) : Except GoError JValue := .ok (jsonString t)

/-- The encoder of `json.Marshal` on a `LightState`: the fields in
declaration order, each under the key of its struct tag. -/
def LightState.toJSON (s : LightState) : Except GoError JObject := do
  let onM ← omitemptyPtr "on" encodeBool s.On
  let bri ← omitemptyPtr "bri" encodeUint s.Brightness
  let hue ← omitemptyPtr "hue" encodeUint s.Hue
  let sat ← omitemptyPtr "sat" encodeUint s.Saturation
  let effect ← omitemptyPtr "effect" encodeString s.Effect
  let xy ← omitemptyPtr "xy" encodeFloatSlice s.XY
  let ct ← omitemptyPtr "ct" encodeUint s.ColorTemp
  let alert ← omitemptyPtr "alert" encodeString s.Alert
  let colormode ← omitemptyPtr "colormode" encodeString s.ColorMode
  let mode ← omitemptyPtr "mode" encodeString s.Mode
  let reachable ← omitemptyPtr "reachable" encodeBool s.Reachable
  pure (onM ++ bri ++ hue ++ sat ++ effect ++ xy ++ ct ++ alert ++ colormode ++ mode
    ++ reachable)

/-- Call `json.Marshal(newState)` for a `LightState`. -/
def marshalLightState (fmtFloat : Float64 → String) (s : LightState) :
    Except GoError String :=
  (s.toJSON).map (renderObject fmtFloat)

/-- The dynamic values stored in a `map[string]interface{}` by this package. -/
inductive GoAny where
  | bool (b : Bool)
  | int (n : Int)
  | string (s : GoString)
  deriving DecidableEq, Repr

/-- Encoding of an interface value by its dynamic type. -/
def GoAny.toJSON : GoAny → JValue
  | .bool b => .bool b
  | .int n => .int n
  | .string s => jsonString s

/-- Insertion of a member into a list of members sorted by key. -/
def insertSorted (kv : String × GoAny) : List (String × GoAny) → List (String × GoAny)
  | [] => [kv]
  | x :: rest => if kv.1 < x.1 then kv :: x :: rest else x :: insertSorted kv rest

/-- The encoder of `json.Marshal` on a `map[string]interface{}`: members
sorted by key. -/
def mapToJSON (m : List (String × GoAny)) : JObject :=
  (m.foldr insertSorted []).map fun kv => (kv.1, kv.2.toJSON)

/-- Call `json.Marshal(v)` for a `map[string]interface{}`. -/
def marshalMap (fmtFloat : Float64 → String) (m : List (String × GoAny)) :
    Except GoError String :=
  .ok (renderObject fmtFloat (mapToJSON m))

/-- Decoding of a JSON number into `uint8` or `uint16` (`bound` is 256 or
65536): a literal outside the range is an `UnmarshalTypeError`. -/
def decodeUint (field : String) (bound : Nat) : JValue → Nat → Except GoError Nat
  | .null, old => .ok old
  | .int n, _ => if 0 ≤ n ∧ n < bound then .ok n.toNat else .error (.unmarshalType field)
  | _, _ => .error (.unmarshalType field)

/-- Decoding into a `bool` field; `null` leaves the field as it is. -/
def decodeBool (field : String) : JValue → Bool → Except GoError Bool
  | .null, old => .ok old
  | .bool b, _ => .ok b
  | _, _ => .error (.unmarshalType field)

/-- Decoding into a `string` field; `null` leaves the field as it is. -/
def decodeString (field : String) : JValue → GoString → Except GoError GoString
  | .null, old => .ok old
  | .str items, _ => .ok (itemsBytes items)
  | _, _ => .error (.unmarshalType field)

/-- Decoding into a `[]float64` field; `null` makes the slice nil. -/
def decodeFloatSlice (field : String) : JValue → Except GoError FloatSlice
  | .null => .ok none
  | .floatArr xs => .ok (some xs)
  | _ => .error (.unmarshalType field)

/-- Struct-field lookup of the decoder: the key of the struct tag, compared
without regard to letter case. -/
def keyIs (key tag : String) : Bool := key.toList.map Char.toLower == tag.toList

/-- One member of a JSON object decoded into a `State`: the member goes to
the field whose struct tag is the key, and is skipped when there is none. -/
def State.setMember (st : State) (kv : String × JValue) : Except GoError State :=
  if keyIs kv.1 "on" then do
    let v ← decodeBool "on" kv.2 st.On
    pure { st with On := v }
  else if keyIs kv.1 "bri" then do
    let v ← decodeUint "bri" 256 kv.2 st.Brightness
    pure { st with Brightness := v }
  else if keyIs kv.1 "hue" then do
    let v ← decodeUint "hue" 65536 kv.2 st.Hue
    pure { st with Hue := v }
  else if keyIs kv.1 "sat" then do
    let v ← decodeUint "sat" 256 kv.2 st.Saturation
    pure { st with Saturation := v }
  else if keyIs kv.1 "effect" then do
    let v ← decodeString "effect" kv.2 st.Effect
    pure { st with Effect := v }
  else if keyIs kv.1 "xy" then do
    let v ← decodeFloatSlice "xy" kv.2
    pure { st with XY := v }
  else if keyIs kv.1 "ct" then do
    let v ← decodeUint "ct" 65536 kv.2 st.ColorTemp
    pure { st with ColorTemp := v }
  else if keyIs kv.1 "alert" then do
    let v ← decodeString "alert" kv.2 st.Alert
    pure { st with Alert := v }
  else if keyIs kv.1 "colormode" then do
    let v ← decodeString "colormode" kv.2 st.ColorMode
    pure { st with ColorMode := v }
  else if keyIs kv.1 "mode" then do
    let v ← decodeString "mode" kv.2 st.Mode
    pure { st with Mode := v }
  else if keyIs kv.1 "reachable" then do
    let v ← decodeBool "reachable" kv.2 st.Reachable
    pure { st with Reachable := v }
  else pure st

/-- The decoder of `json.Unmarshal` on a JSON object into a fresh `State`. -/
def State.fromJSON (o : JObject) : Except GoError State :=
  o.foldlM State.setMember State.zero

/-! ## The world outside the package -/

/-- An HTTP request as handed to the HTTP layer (`http.NewRequest` followed
by `client.Do`). -/
structure Request where
  method : String
  url : String
  header : List (String × String)
  body : String
  deriving DecidableEq, Repr

/-- An HTTP response. -/
structure Response where
  statusCode : Nat
  body : String
  deriving DecidableEq, Repr

/-- The fields of `zeroconf.ServiceEntry` that the package reads. -/
structure ServiceEntry where
  Instance : String
  Port : Int
  Text : List String
  AddrIPv4 : List IP
  deriving DecidableEq, Repr

/-- An effect visible outside the process. -/
inductive Event where
  | newResolver
  | browse (service domain : String)
  | http (req : Request)
  deriving DecidableEq, Repr

/-- A Go `map[string]α`: its entries, with pairwise distinct keys. -/
structure GoMap (α : Type) where
  entries : List (String × α)
  nodup : (entries.map Prod.fst).Nodup

/-- A `*zeroconf.Resolver`. Its method `Browse` either fails to start or
starts a stream; the stream is the finite list of records it yields before
it is closed. -/
structure Resolver where
  Browse : String → String → Except ExtError (List ServiceEntry)

/-- Everything the package obtains from outside.
* `getenv` is `os.Getenv`;
* `newResolver` is `zeroconf.NewResolver(nil)`;
* `send` is the HTTP layer: `http.NewRequest` followed by `Do` of the
  private client that `find` installs before any request is made;
* `decodeLights` is `json.NewDecoder(body).Decode` into a `map[string]Light`;
* `rangeOrder` is the order in which a `range` loop visits a map;
* `fmtFloat` is `strconv.AppendFloat` as used by the JSON encoder. -/
structure Env where
  getenv : String → String
  newResolver : Except ExtError Resolver
  send : Request → Except ExtError Response
  decodeLights : String → Except ExtError (GoMap Light)
  rangeOrder : GoMap Light → List (String × Light)
  rangeOrder_perm : ∀ m, (rangeOrder m).Perm m.entries
  fmtFloat : Float64 → String

/-- The result of a call that does not assign to its receiver. -/
structure Run (α : Type) where
  out : Outcome α
  trace : List Event

/-- The result of a call on a pointer receiver of type `σ`: the outcome,
the receiver afterwards, and the effects in order. -/
structure Step (σ α : Type) where
  out : Outcome α
  state : σ
  trace : List Event

/-! ## `resolver.go` -/

/-- The struct `mDNSController`. -/
structure mDNSController where
  Resolver : Option Resolver
  BridgeEntry : Option ServiceEntry

/-- HueBridge represents a Hue Bridge with its properties and functionalities.
The private field `client` is assigned by `find` before any request and is
represented by `Env.send`; a nil slice is the empty list. -/
structure HueBridge where
  IPs : List IP
  Instance : String
  Port : Int
  Text : List String
  Controller : Option mDNSController
  Lights : List Light
  Username : String

/-- The composite literal `HueBridge{}`. -/
def HueBridge.zero : HueBridge := ⟨[], "", 0, [], none, [], ""⟩

/-- The method `(m *mDNSController) Init`. -/
def Init (env : Env) (m : mDNSController) : Step mDNSController (Option GoError) :=
  match liftExt env.newResolver with
  | .error err => ⟨.ret (some err), m, [.newResolver]⟩
  | .ok r => ⟨.ret none, { m with Resolver := some r }, [.newResolver]⟩

/-- The method `(m *mDNSController) SearchHue`. The loop over the channel
returns at the first record; it ends without a record when the stream is
closed empty. -/
def SearchHue (m : mDNSController) : Step mDNSController (Except GoError HueBridge) :=
  match m.Resolver with
  | none => ⟨.panic (.runtime "invalid memory address or nil pointer dereference"), m, []⟩
  | some r =>
    match liftExt (r.Browse "_hue._tcp" "local.") with
    | .error err => ⟨.ret (.error err), m, [.browse "_hue._tcp" "local."]⟩
    | .ok [] => ⟨.ret (.error (.errorsNew "not found")), m, [.browse "_hue._tcp" "local."]⟩
    | .ok (entry :: _) =>
      ⟨.ret (.ok { HueBridge.zero with
          IPs := entry.AddrIPv4, Instance := entry.Instance, Port := entry.Port,
          Text := entry.Text }),
        { m with BridgeEntry := some entry }, [.browse "_hue._tcp" "local."]⟩

/-! ## `bridge.go` -/

/-- The method `makeAPIRequest`: the URL is built from `IPs[0]`, which
panics on an empty slice; the request always carries the JSON content
type. -/
def makeAPIRequest (env : Env) (b : HueBridge) (method path body : String) :
    Run (Except GoError Response) :=
  match b.IPs with
  | [] => ⟨.panic (.runtime "index out of range [0] with length 0"), []⟩
  | ip :: _ =>
    let url := "https://" ++ ip.String ++ ":" ++ fmtInt b.Port ++ "/api/" ++ b.Username
      ++ "/" ++ path
    let req : Request := ⟨method, url, [("Content-Type", "application/json")], body⟩
    ⟨.ret (liftExt (env.send req)), [.http req]⟩

/-- The function `createJSONPayload`, called on a `map[string]interface{}`. -/
def createJSONPayload (env : Env) (v : List (String × GoAny)) : Except GoError String :=
  match marshalMap env.fmtFloat v with
  | .error err => .error err
  | .ok payload => .ok payload

/-- The method `ToggleLight`. -/
def ToggleLight (env : Env) (b : HueBridge) (id : Int) (on_ : Bool) :
    Run (Except GoError Response) :=
  let id := wrapInt (id + 1)
  if id > b.Lights.length ∨ id < 1 then
    ⟨.ret (.error (.errorsNew "ID not valid")), []⟩
  else
    let path := "lights/" ++ fmtInt id ++ "/state"
    let state : List (String × GoAny) := [("on", .bool on_)]
    match createJSONPayload env state with
    | .error err => ⟨.ret (.error err), []⟩
    | .ok jsonData =>
      let r := makeAPIRequest env b "PUT" path jsonData
      match r.out with
      | .panic v => ⟨.panic v, r.trace⟩
      | .ret (.error err) => ⟨.ret (.error err), r.trace⟩
      | .ret (.ok resp) => ⟨.ret (.ok resp), r.trace⟩

/-- The method `ChangeLight`. -/
def ChangeLight (env : Env) (b : HueBridge) (id : Int) (newState : LightState) :
    Run (Except GoError Response) :=
  let id := wrapInt (id + 1)
  if id > b.Lights.length ∨ id < 1 then
    ⟨.ret (.error (.errorsNew "ID not valid")), []⟩
  else
    let path := "lights/" ++ fmtInt id ++ "/state"
    match marshalLightState env.fmtFloat newState with
    | .error err => ⟨.ret (.error err), []⟩
    | .ok jsonData =>
      let r := makeAPIRequest env b "PUT" path jsonData
      match r.out with
      | .panic v => ⟨.panic v, r.trace⟩
      | .ret (.error err) => ⟨.ret (.error err), r.trace⟩
      | .ret (.ok resp) => ⟨.ret (.ok resp), r.trace⟩

/-- The loop `for _, light := range lights` appending to a slice. -/
def appendLights (visited : List (String × Light)) (acc : List Light) : List Light :=
  visited.foldl (fun ls kv => ls ++ [kv.2]) acc

/-- The method `FetchLights`. -/
def FetchLights (env : Env) (b : HueBridge) : Step HueBridge (Option GoError) :=
  let r := makeAPIRequest env b "GET" "lights" ""
  match r.out with
  | .panic v => ⟨.panic v, b, r.trace⟩
  | .ret (.error err) => ⟨.ret (some err), b, r.trace⟩
  | .ret (.ok resp) =>
    match liftExt (env.decodeLights resp.body) with
    | .error err => ⟨.ret (some err), b, r.trace⟩
    | .ok lights =>
      ⟨.ret none, { b with Lights := appendLights (env.rangeOrder lights) [] }, r.trace⟩

/-- The method `find`. The two statements that build the HTTP client
(certificate verification off, timeout of five seconds) and store it in the
private field `client` have no counterpart here: that client is `Env.send`. -/
def find (env : Env) (h : HueBridge) : Step HueBridge (Option GoError) :=
  let username := env.getenv "HUE_USERNAME"
  if username = "" then
    ⟨.panic (.error (.errorsNew "HUE_USERNAME environment variable not set")), h, []⟩
  else
    let h := { h with Username := username, Controller := some ⟨none, none⟩ }
    let i := Init env ⟨none, none⟩
    let h := { h with Controller := some i.state }
    match i.out with
    | .panic v => ⟨.panic v, h, i.trace⟩
    | .ret (some err) => ⟨.ret (some err), h, i.trace⟩
    | .ret none =>
      let s := SearchHue i.state
      let h := { h with Controller := some s.state }
      match s.out with
      | .panic v => ⟨.panic v, h, i.trace ++ s.trace⟩
      | .ret (.error err) => ⟨.ret (some err), h, i.trace ++ s.trace⟩
      | .ret (.ok hb) =>
        let h := { h with IPs := hb.IPs, Instance := hb.Instance, Port := hb.Port,
                          Text := hb.Text }
        let f := FetchLights env h
        match f.out with
        | .panic v => ⟨.panic v, f.state, i.trace ++ s.trace ++ f.trace⟩
        | .ret (some err) => ⟨.ret (some err), f.state, i.trace ++ s.trace ++ f.trace⟩
        | .ret none =>
          if f.state.IPs.length < 1 then
            ⟨.ret (some (.errorsNew "no IPs found")), f.state, i.trace ++ s.trace ++ f.trace⟩
          else
            ⟨.ret none, f.state, i.trace ++ s.trace ++ f.trace⟩

/-- The function `Setup`. -/
def Setup (env : Env) : Run (Except GoError HueBridge) :=
  let r := find env HueBridge.zero
  match r.out with
  | .panic v => ⟨.panic v, r.trace⟩
  | .ret (some err) => ⟨.ret (.error err), r.trace⟩
  | .ret none => ⟨.ret (.ok r.state), r.trace⟩

/-! ## Auxiliary definitions for the statements -/

/-- The member list contributed by an optional value. -/
def optMember (key : String) : Option JValue → JObject
  | none => []
  | some v => [(key, v)]

/-- The members of a `LightState` given the encoding of its `xy` member. -/
def LightState.members (s : LightState) (xy : JObject) : JObject :=
  optMember "on" (s.On.map .bool)
    ++ optMember "bri" (s.Brightness.map fun n => .int (Int.ofNat n))
    ++ optMember "hue" (s.Hue.map fun n => .int (Int.ofNat n))
    ++ optMember "sat" (s.Saturation.map fun n => .int (Int.ofNat n))
    ++ optMember "effect" (s.Effect.map jsonString) ++ xy
    ++ optMember "ct" (s.ColorTemp.map fun n => .int (Int.ofNat n))
    ++ optMember "alert" (s.Alert.map jsonString)
    ++ optMember "colormode" (s.ColorMode.map jsonString)
    ++ optMember "mode" (s.Mode.map jsonString) ++ optMember "reachable" (s.Reachable.map .bool)

/-- The JSON value of a `[]float64` whose entries are finite. -/
def sliceJSON : FloatSlice → JValue
  | none => .null
  | some xs => .floatArr xs

/-- Every entry of the slice that `XY` points to, if any, is finite. -/
def LightState.encodable (s : LightState) : Bool :=
  match s.XY with
  | some (some xs) => xs.all Float64.isFinite
  | _ => true

/-- Every entry of `XY` is finite (vacuously so for the nil slice). -/
def State.finiteXY (st : State) : Bool :=
  match st.XY with
  | some xs => xs.all Float64.isFinite
  | none => true

/-- The string fields of a `LightState` that are set. -/
def LightState.strings (s : LightState) : List GoString :=
  [s.Effect, s.Alert, s.ColorMode, s.Mode].filterMap id

/-- Every string field of the `State` is valid UTF-8. -/
def State.validStrings (st : State) : Bool :=
  validUTF8 st.Effect && validUTF8 st.Alert && validUTF8 st.ColorMode && validUTF8 st.Mode

/-- The `State` with every string field coerced to valid UTF-8. -/
def State.coerced (st : State) : State :=
  { st with Effect := coerceUTF8 st.Effect, Alert := coerceUTF8 st.Alert,
            ColorMode := coerceUTF8 st.ColorMode, Mode := coerceUTF8 st.Mode }

/-- The Go string a JSON value is decoded to, when the value is a string. -/
def JValue.goString : JValue → Option GoString
  | .str items => some (itemsBytes items)
  | _ => none

/-- The keys of the struct tags of `LightState`, in declaration order. -/
def lightStateKeys : List String :=
  ["on", "bri", "hue", "sat", "effect", "xy", "ct", "alert", "colormode", "mode", "reachable"]

/-- The URL of the state resource of the light with bridge id `id`. -/
def stateURL (ip : IP) (port : Int) (username : String) (id : Nat) : String :=
  "https://" ++ ip.String ++ ":" ++ fmtInt port ++ "/api/" ++ username ++ "/lights/"
    ++ Nat.repr id ++ "/state"

/-- The URL of the lights resource. -/
def lightsURL (ip : IP) (port : Int) (username : String) : String :=
  "https://" ++ ip.String ++ ":" ++ fmtInt port ++ "/api/" ++ username ++ "/lights"

/-- The header every request carries. -/
def jsonHeader : List (String × String) := [("Content-Type", "application/json")]

/-- The error of an out-of-range light index. -/
def idNotValid : GoError := .errorsNew "ID not valid"

/-! ## Sample values -/

/-- A light with every field at its zero value except the name. -/
def sampleLight (name : String) : Light :=
  { State := State.zero, SWUpdate := ⟨"", ""⟩, Type_ := "", Name := name, ModelID := "",
    Manufacturer := "", ProductName := "",
    Capabilities := ⟨false, ⟨0, 0, "", none, none⟩, ⟨false, false⟩⟩,
    Config := ⟨"", "", "", ⟨"", false⟩⟩, UniqueID := "", SWVersion := "", SWConfigID := "",
    ProductID := "" }

/-- The record a bridge at `10.0.0.5:443` advertises. -/
def sampleEntry : ServiceEntry :=
  ⟨"Hue Bridge", 443, ["bridgeid=001788fffe000000"], [⟨[10, 0, 0, 5]⟩]⟩

/-- A record without any IPv4 address. -/
def entryNoIPs : ServiceEntry := ⟨"Hue Bridge", 443, [], []⟩

/-- The decoded mapping with the two entries `"1"` and `"2"`. -/
def sampleMap : GoMap Light :=
  ⟨[("1", sampleLight "Lamp"), ("2", sampleLight "Desk")], by decide⟩

/-- A world in which the credential is `abc123`, the browse yields the given
records, every request is answered with status 200 and the body decodes to
`sampleMap`, visited in reverse order. -/
def sampleEnv (records : List ServiceEntry) : Env :=
  { getenv := fun name => if name = "HUE_USERNAME" then "abc123" else ""
    newResolver := .ok ⟨fun _ _ => .ok records⟩
    send := fun _ => .ok ⟨200, ""⟩
    decodeLights := fun _ => .ok sampleMap
    rangeOrder := fun m => m.entries.reverse
    rangeOrder_perm := fun m => List.reverse_perm m.entries
    fmtFloat := fun _ => "0" }

/-- A bridge at `10.0.0.5:443` with a second address and one cached light. -/
def sampleBridge : HueBridge :=
  { HueBridge.zero with
    IPs := [⟨[10, 0, 0, 5]⟩, ⟨[192, 168, 1, 2]⟩], Port := 443, Username := "abc123",
    Lights := [sampleLight "Lamp"] }

/-- A state in which `On` is set and `XY` points to a slice holding a NaN. -/
def stateWithNaN : LightState :=
  { LightState.zero with On := some true, XY := some (some [Float64.nan]) }

/-- A world in which every request times out. -/
def timeoutEnv : Env :=
  { sampleEnv [sampleEntry] with send := fun _ => .error ⟨"context deadline exceeded"⟩ }

/-- A world in which every response body is rejected by the JSON decoder. -/
def garbageEnv : Env :=
  { sampleEnv [sampleEntry] with
    send := fun _ => .ok ⟨200, ""⟩
    decodeLights := fun _ => .error ⟨"unexpected end of JSON input"⟩ }

/-- The request `FetchLights` makes on a bridge whose first address is `ip`. -/
def lightsRequest (ip : IP) (b : HueBridge) : Request :=
  ⟨"GET", lightsURL ip b.Port b.Username, jsonHeader, ""⟩

/-- A second record, from another advertiser. -/
def otherEntry : ServiceEntry := ⟨"Other Bridge", 8443, [], [⟨[10, 0, 0, 9]⟩]⟩

/-- A resolver whose browse yields the given records. -/
def resolverOf (records : List ServiceEntry) : Resolver := ⟨fun _ _ => .ok records⟩

/-- The bridge `find` has assembled when it calls `FetchLights`: credential,
controller with its resolver and the first record, and the four fields
copied from that record. -/
def discovered (h : HueBridge) (username : String) (r : Resolver) (first : ServiceEntry) :
    HueBridge :=
  { h with Username := username, Controller := some ⟨some r, some first⟩,
           IPs := first.AddrIPv4, Instance := first.Instance, Port := first.Port,
           Text := first.Text }

/-- The browse event of `SearchHue`. -/
def browseEvent : Event := .browse "_hue._tcp" "local."

/-- The panic value of a missing credential. -/
def credentialPanic : PanicValue :=
  .error (.errorsNew "HUE_USERNAME environment variable not set")

/-- The panic value of indexing an empty slice at 0. -/
def indexPanic : PanicValue := .runtime "index out of range [0] with length 0"

/-- A `State` whose `XY` holds a NaN, every other field at its zero value. -/
def stateNaN : State := { State.zero with XY := some [Float64.nan] }

/-- A `State` with every field populated. -/
def stateFull : State :=
  ⟨true, 254, 65535, 255, GoString.ofText "colorloop", some [Float64.zero, ⟨false, 1022, 0⟩],
    153, GoString.ofText "select", GoString.ofText "xy", GoString.ofText "homeautomation", true⟩

/-- The three bytes `a`, `0xFF`, `b`: not valid UTF-8. -/
def badBytes : GoString := [0x61, 0xFF, 0x62]

/-- A `State` whose `Effect` is not valid UTF-8, every other field zero. -/
def stateBadEffect : State := { State.zero with Effect := badBytes }

/-- A `LightState` in which only `Effect` is set, to a string that is not
valid UTF-8. -/
def lightStateBadEffect : LightState := { LightState.zero with Effect := some badBytes }

/-- A state in which only `XY` is set, to a slice holding positive infinity. -/
def stateWithInf : LightState :=
  { LightState.zero with XY := some (some [⟨false, 2047, 0⟩]) }

/-! ## Lemmas -/

theorem wrapInt_succ_invalid_iff (i : Int) (n : Nat) (hlo : -intBound ≤ i) (hhi : i < intBound)
    (hn : (n : Int) < intBound) :
    (wrapInt (i + 1) > n ∨ wrapInt (i + 1) < 1) ↔ (i < 0 ∨ i + 1 > n) := by
  unfold wrapInt intBound at *
  omega

theorem wrapInt_succ_of_valid (i : Int) (n : Nat) (h0 : 0 ≤ i) (hi : i < n)
    (hn : (n : Int) < intBound) : wrapInt (i + 1) = i + 1 := by
  unfold wrapInt intBound at *
  omega

theorem toNat_ofNat_valid (n : Nat) (h : n.isValidChar) : (Char.ofNat n).toNat = n := by
  simp only [Char.ofNat, h, dif_pos, Char.ofNatAux, Char.toNat]
  rfl

theorem byte_val (b : Fin 256) : byte b.val = b := by
  apply Fin.ext
  simp [byte, Nat.mod_eq_of_lt b.isLt]

theorem byte_eq (n : Nat) (b : Fin 256) (h : n = b.val) : byte n = b := by
  subst h
  exact byte_val b

theorem decodeRune_sound (bs : GoString) (cp size : Nat) (h : decodeRune bs = some (cp, size)) :
    1 ≤ size ∧ cp.isValidChar ∧ encodeCodePoint cp ++ bs.drop size = bs := by
  cases bs with
  | nil => simp [decodeRune] at h
  | cons b0 rest =>
    have hb0 := b0.isLt
    simp only [decodeRune] at h
    split_ifs at h with h1 h2 h3 h4
    · simp only [Option.some.injEq, Prod.mk.injEq] at h
      obtain ⟨rfl, rfl⟩ := h
      refine ⟨le_refl _, Or.inl (by omega), ?_⟩
      simp [encodeCodePoint, h1, byte_val]
    · cases rest with
      | nil => simp at h
      | cons b1 r1 =>
        have hb1 := b1.isLt
        simp only [isCont, decide_eq_true_eq] at h
        split_ifs at h with hc
        simp only [Option.some.injEq, Prod.mk.injEq] at h
        obtain ⟨rfl, rfl⟩ := h
        refine ⟨by omega, Or.inl (by omega), ?_⟩
        have e1 : ¬ (b0.val % 32 * 64 + b1.val % 64 < 128) := by omega
        have e2 : b0.val % 32 * 64 + b1.val % 64 < 2048 := by omega
        simp only [encodeCodePoint, e1, e2, if_true, if_false, List.drop_succ_cons,
          List.drop_zero, List.cons_append, List.nil_append]
        rw [byte_eq _ b0 (by omega), byte_eq _ b1 (by omega)]
    · cases rest with
      | nil => simp at h
      | cons b1 r1 =>
        cases r1 with
        | nil => simp at h
        | cons b2 r2 =>
          have hb1 := b1.isLt
          have hb2 := b2.isLt
          simp only [isCont, decide_eq_true_eq, secondLow, secondHigh] at h
          split_ifs at h with hc
          all_goals
            simp only [Option.some.injEq, Prod.mk.injEq] at h
            obtain ⟨rfl, rfl⟩ := h
            have hv : (b0.val % 16 * 4096 + b1.val % 64 * 64 + b2.val % 64).isValidChar := by
              unfold Nat.isValidChar
              omega
            refine ⟨by omega, hv, ?_⟩
            have e1 : ¬ (b0.val % 16 * 4096 + b1.val % 64 * 64 + b2.val % 64 < 128) := by omega
            have e2 : ¬ (b0.val % 16 * 4096 + b1.val % 64 * 64 + b2.val % 64 < 2048) := by omega
            have e3 : b0.val % 16 * 4096 + b1.val % 64 * 64 + b2.val % 64 < 65536 := by omega
            simp only [encodeCodePoint, e1, e2, e3, if_true, if_false, List.drop_succ_cons,
              List.drop_zero, List.cons_append, List.nil_append]
            rw [byte_eq _ b0 (by omega), byte_eq _ b1 (by omega), byte_eq _ b2 (by omega)]
    · cases rest with
      | nil => simp at h
      | cons b1 r1 =>
        cases r1 with
        | nil => simp at h
        | cons b2 r2 =>
          cases r2 with
          | nil => simp at h
          | cons b3 r3 =>
            have hb1 := b1.isLt
            have hb2 := b2.isLt
            have hb3 := b3.isLt
            simp only [isCont, decide_eq_true_eq, secondLow, secondHigh] at h
            split_ifs at h with hc
            all_goals
              simp only [Option.some.injEq, Prod.mk.injEq] at h
              obtain ⟨rfl, rfl⟩ := h
              have hv : (b0.val % 8 * 262144 + b1.val % 64 * 4096 + b2.val % 64 * 64
                  + b3.val % 64).isValidChar := by
                unfold Nat.isValidChar
                omega
              refine ⟨by omega, hv, ?_⟩
              have e1 : ¬ (b0.val % 8 * 262144 + b1.val % 64 * 4096 + b2.val % 64 * 64
                  + b3.val % 64 < 128) := by omega
              have e2 : ¬ (b0.val % 8 * 262144 + b1.val % 64 * 4096 + b2.val % 64 * 64
                  + b3.val % 64 < 2048) := by omega
              have e3 : ¬ (b0.val % 8 * 262144 + b1.val % 64 * 4096 + b2.val % 64 * 64
                  + b3.val % 64 < 65536) := by omega
              simp only [encodeCodePoint, e1, e2, e3, if_true, if_false, List.drop_succ_cons,
                List.drop_zero, List.cons_append, List.nil_append]
              rw [byte_eq _ b0 (by omega), byte_eq _ b1 (by omega), byte_eq _ b2 (by omega),
                byte_eq _ b3 (by omega)]

theorem itemsBytes_decodeItems (g : GoString) :
    ∀ skip, validFrom skip g = true → itemsBytes (decodeItems skip g) = g.drop skip := by
  induction g with
  | nil =>
    intro skip _
    cases skip <;> simp [decodeItems, itemsBytes]
  | cons b tail ih =>
    intro skip h
    cases skip with
    | succ k =>
      simp only [decodeItems, validFrom, List.drop_succ_cons] at h ⊢
      exact ih k h
    | zero =>
      simp only [decodeItems, validFrom] at h ⊢
      cases hd : decodeRune (b :: tail) with
      | none => simp [hd] at h
      | some p =>
        obtain ⟨cp, size⟩ := p
        simp only [hd] at h ⊢
        obtain ⟨h1, hv, he⟩ := decodeRune_sound _ _ _ hd
        obtain ⟨k, rfl⟩ : ∃ k, size = k + 1 := ⟨size - 1, by omega⟩
        simp only [itemsBytes, itemBytes, toNat_ofNat_valid cp hv, Nat.add_sub_cancel,
          List.drop_zero] at h ⊢
        rw [ih k h]
        simpa using he

theorem coerceUTF8_of_valid (g : GoString) (h : validUTF8 g = true) : coerceUTF8 g = g := by
  have := itemsBytes_decodeItems g 0 h
  simpa [coerceUTF8] using this

theorem omitemptyPtr_ok {α : Type} (key : String) (enc : α → Except GoError JValue)
    (g : α → JValue) (h : ∀ a, enc a = .ok (g a)) (o : Option α) :
    omitemptyPtr key enc o = .ok (optMember key (o.map g)) := by
  cases o with
  | none => rfl
  | some a => simp [omitemptyPtr, h a, optMember]

theorem LightState.toJSON_eq (s : LightState) :
    s.toJSON = (omitemptyPtr "xy" encodeFloatSlice s.XY).map s.members := by
  unfold LightState.toJSON
  simp only [omitemptyPtr_ok _ encodeBool JValue.bool (fun _ => rfl),
    omitemptyPtr_ok _ encodeString jsonString (fun _ => rfl),
    omitemptyPtr_ok _ encodeUint (fun n => JValue.int (Int.ofNat n)) (fun _ => rfl)]
  cases h : omitemptyPtr "xy" encodeFloatSlice s.XY <;> rfl

theorem makeAPIRequest_cons (env : Env) (b : HueBridge) (ip : IP) (rest : List IP)
    (hip : b.IPs = ip :: rest) (method path body : String) :
    makeAPIRequest env b method path body =
      ⟨.ret (liftExt (env.send ⟨method, "https://" ++ ip.String ++ ":" ++ fmtInt b.Port ++ "/api/"
          ++ b.Username ++ "/" ++ path, jsonHeader, body⟩)),
        [.http ⟨method, "https://" ++ ip.String ++ ":" ++ fmtInt b.Port ++ "/api/"
          ++ b.Username ++ "/" ++ path, jsonHeader, body⟩]⟩ := by
  unfold makeAPIRequest
  rw [hip]
  rfl

theorem makeAPIRequest_nil (env : Env) (b : HueBridge) (hip : b.IPs = [])
    (method path body : String) :
    makeAPIRequest env b method path body =
      ⟨.panic (.runtime "index out of range [0] with length 0"), []⟩ := by
  unfold makeAPIRequest
  rw [hip]

theorem ToggleLight_invalid (env : Env) (b : HueBridge) (i : Int) (on_ : Bool)
    (h : wrapInt (i + 1) > b.Lights.length ∨ wrapInt (i + 1) < 1) :
    ToggleLight env b i on_ = ⟨.ret (.error idNotValid), []⟩ := by
  unfold ToggleLight
  simp only [h, if_true]
  rfl

theorem ToggleLight_valid (env : Env) (b : HueBridge) (i : Int) (on_ : Bool)
    (h : ¬ (wrapInt (i + 1) > b.Lights.length ∨ wrapInt (i + 1) < 1)) :
    ToggleLight env b i on_ =
      makeAPIRequest env b "PUT" ("lights/" ++ fmtInt (wrapInt (i + 1)) ++ "/state")
        (renderObject env.fmtFloat [("on", .bool on_)]) := by
  unfold ToggleLight
  simp only [h, if_false, createJSONPayload, marshalMap]
  split <;> rename_i heq <;> rw [← heq] <;> rfl

theorem ChangeLight_invalid (env : Env) (b : HueBridge) (i : Int) (s : LightState)
    (h : wrapInt (i + 1) > b.Lights.length ∨ wrapInt (i + 1) < 1) :
    ChangeLight env b i s = ⟨.ret (.error idNotValid), []⟩ := by
  unfold ChangeLight
  simp only [h, if_true]
  rfl

theorem ChangeLight_valid_ok (env : Env) (b : HueBridge) (i : Int) (s : LightState)
    (h : ¬ (wrapInt (i + 1) > b.Lights.length ∨ wrapInt (i + 1) < 1)) (o : JObject)
    (ho : s.toJSON = .ok o) :
    ChangeLight env b i s =
      makeAPIRequest env b "PUT" ("lights/" ++ fmtInt (wrapInt (i + 1)) ++ "/state")
        (renderObject env.fmtFloat o) := by
  unfold ChangeLight
  simp only [h, if_false, marshalLightState, ho, Except.map]
  split <;> rename_i heq <;> rw [← heq]

theorem ChangeLight_valid_error (env : Env) (b : HueBridge) (i : Int) (s : LightState)
    (h : ¬ (wrapInt (i + 1) > b.Lights.length ∨ wrapInt (i + 1) < 1)) (e : GoError)
    (he : s.toJSON = .error e) :
    ChangeLight env b i s = ⟨.ret (.error e), []⟩ := by
  unfold ChangeLight
  simp only [h, if_false, marshalLightState, he, Except.map]

theorem toJSON_error (s : LightState) (e : GoError) (he : s.toJSON = .error e) :
    ∃ w, e = .unsupportedValue w := by
  rw [LightState.toJSON_eq] at he
  cases hxy : s.XY with
  | none => simp [hxy, omitemptyPtr, Except.map] at he
  | some sl =>
    cases sl with
    | none => simp [hxy, omitemptyPtr, encodeFloatSlice, Except.map, bind, Except.bind, pure, Except.pure] at he
    | some xs =>
      simp only [hxy, omitemptyPtr, encodeFloatSlice] at he
      cases hf : xs.find? (fun f => !f.isFinite) with
      | none => simp [hf, Except.map, bind, Except.bind, pure, Except.pure] at he
      | some bad =>
        simp [hf, Except.map, bind, Except.bind] at he
        exact ⟨_, he.symm⟩

/-- C1: with Go's wrapping increment, `ToggleLight` and `ChangeLight` return
the error `ID not valid` exactly when `i < 0` or `i + 1 > len(Lights)`
(`i + 1` taken in the integers, so the largest `int` is included), and they
issue no request when they do. -/
theorem invalid_index_iff (env : Env) (b : HueBridge) (i : Int) (on_ : Bool) (s : LightState)
    (hlo : -intBound ≤ i) (hhi : i < intBound) (hlen : (b.Lights.length : Int) < intBound) :
    (((ToggleLight env b i on_).out = .ret (.error idNotValid)
        ↔ (i < 0 ∨ i + 1 > b.Lights.length))
      ∧ ((ToggleLight env b i on_).out = .ret (.error idNotValid)
        → (ToggleLight env b i on_).trace = []))
    ∧ (((ChangeLight env b i s).out = .ret (.error idNotValid)
        ↔ (i < 0 ∨ i + 1 > b.Lights.length))
      ∧ ((ChangeLight env b i s).out = .ret (.error idNotValid)
        → (ChangeLight env b i s).trace = [])) := by
  have key := wrapInt_succ_invalid_iff i b.Lights.length hlo hhi hlen
  by_cases h : wrapInt (i + 1) > b.Lights.length ∨ wrapInt (i + 1) < 1
  · have hr := key.mp h
    rw [ToggleLight_invalid env b i on_ h, ChangeLight_invalid env b i s h]
    simp [hr]
  · have hr : ¬ (i < 0 ∨ i + 1 > b.Lights.length) := fun hc => h (key.mpr hc)
    have ht : (ToggleLight env b i on_).out ≠ .ret (.error idNotValid) := by
      rw [ToggleLight_valid env b i on_ h]
      cases hip : b.IPs with
      | nil => rw [makeAPIRequest_nil env b hip]; simp
      | cons ip rest =>
        rw [makeAPIRequest_cons env b ip rest hip]
        cases env.send _ <;> simp [liftExt, idNotValid]
    have hc : (ChangeLight env b i s).out ≠ .ret (.error idNotValid) := by
      cases hj : s.toJSON with
      | error e =>
        rw [ChangeLight_valid_error env b i s h e hj]
        obtain ⟨w, rfl⟩ := toJSON_error s e hj
        simp [idNotValid]
      | ok o =>
        rw [ChangeLight_valid_ok env b i s h o hj]
        cases hip : b.IPs with
        | nil => rw [makeAPIRequest_nil env b hip]; simp
        | cons ip rest =>
          rw [makeAPIRequest_cons env b ip rest hip]
          cases env.send _ <;> simp [liftExt, idNotValid]
    simp [ht, hc, hr]

/-- Witness for C1 at the largest `int`, where the increment wraps. -/
theorem invalid_index_iff_witness :
    (-intBound ≤ 9223372036854775807 ∧ (9223372036854775807 : Int) < intBound
      ∧ ((sampleBridge.Lights.length : Int) < intBound))
    ∧ (ToggleLight (sampleEnv []) sampleBridge 9223372036854775807 true).out
        = .ret (.error idNotValid)
    ∧ (ChangeLight (sampleEnv []) sampleBridge 9223372036854775807 LightState.zero).out
        = .ret (.error idNotValid) :=
  have h := invalid_index_iff (sampleEnv []) sampleBridge 9223372036854775807 true
    LightState.zero (by decide) (by decide) (by decide)
  ⟨⟨by decide, by decide, by decide⟩, h.1.1.mpr (Or.inr (by decide)),
    h.2.1.mpr (Or.inr (by decide))⟩

theorem fmtInt_succ (i : Int) (h0 : 0 ≤ i) : fmtInt (i + 1) = Nat.repr (i.toNat + 1) := by
  obtain ⟨n, rfl⟩ := Int.eq_ofNat_of_zero_le h0
  rfl

theorem slash_lights (y : String) : "/" ++ ("lights/" ++ y) = "/lights/" ++ y := by
  rw [← String.append_assoc]
  rfl

theorem state_url_eq (ip : IP) (port : Int) (username : String) (i : Int) (h0 : 0 ≤ i) :
    "https://" ++ ip.String ++ ":" ++ fmtInt port ++ "/api/" ++ username ++ "/"
      ++ ("lights/" ++ fmtInt (i + 1) ++ "/state")
    = stateURL ip port username (i.toNat + 1) := by
  unfold stateURL
  rw [fmtInt_succ i h0]
  simp only [String.append_assoc, slash_lights]

theorem lights_url_eq (ip : IP) (port : Int) (username : String) :
    "https://" ++ ip.String ++ ":" ++ fmtInt port ++ "/api/" ++ username ++ "/" ++ "lights"
    = lightsURL ip port username := by
  unfold lightsURL
  simp only [String.append_assoc]
  rfl

theorem valid_of_bounds (n : Nat) (i : Int) (h0 : 0 ≤ i) (hi : i < n)
    (hn : (n : Int) < intBound) : ¬ (wrapInt (i + 1) > n ∨ wrapInt (i + 1) < 1) := by
  rw [wrapInt_succ_of_valid i n h0 hi hn]
  omega

theorem ToggleLight_run (env : Env) (b : HueBridge) (ip : IP) (rest : List IP)
    (hip : b.IPs = ip :: rest) (i : Int) (h0 : 0 ≤ i) (hi : i < b.Lights.length)
    (hlen : (b.Lights.length : Int) < intBound) (on_ : Bool) :
    ToggleLight env b i on_ =
      ⟨.ret (liftExt (env.send ⟨"PUT", stateURL ip b.Port b.Username (i.toNat + 1), jsonHeader,
          renderObject env.fmtFloat [("on", .bool on_)]⟩)),
        [.http ⟨"PUT", stateURL ip b.Port b.Username (i.toNat + 1), jsonHeader,
          renderObject env.fmtFloat [("on", .bool on_)]⟩]⟩ := by
  rw [ToggleLight_valid env b i on_ (valid_of_bounds _ i h0 hi hlen),
    makeAPIRequest_cons env b ip rest hip, wrapInt_succ_of_valid i _ h0 hi hlen,
    state_url_eq ip b.Port b.Username i h0]

theorem ChangeLight_run (env : Env) (b : HueBridge) (ip : IP) (rest : List IP)
    (hip : b.IPs = ip :: rest) (i : Int) (h0 : 0 ≤ i) (hi : i < b.Lights.length)
    (hlen : (b.Lights.length : Int) < intBound) (s : LightState) (o : JObject)
    (ho : s.toJSON = .ok o) :
    ChangeLight env b i s =
      ⟨.ret (liftExt (env.send ⟨"PUT", stateURL ip b.Port b.Username (i.toNat + 1), jsonHeader,
          renderObject env.fmtFloat o⟩)),
        [.http ⟨"PUT", stateURL ip b.Port b.Username (i.toNat + 1), jsonHeader,
          renderObject env.fmtFloat o⟩]⟩ := by
  rw [ChangeLight_valid_ok env b i s (valid_of_bounds _ i h0 hi hlen) o ho,
    makeAPIRequest_cons env b ip rest hip, wrapInt_succ_of_valid i _ h0 hi hlen,
    state_url_eq ip b.Port b.Username i h0]

theorem FetchLights_trace (env : Env) (b : HueBridge) (ip : IP) (rest : List IP)
    (hip : b.IPs = ip :: rest) :
    (FetchLights env b).trace = [.http ⟨"GET", lightsURL ip b.Port b.Username, jsonHeader, ""⟩] := by
  unfold FetchLights
  simp only [makeAPIRequest_cons env b ip rest hip, lights_url_eq]
  cases env.send _ with
  | error e => rfl
  | ok resp =>
    simp only [liftExt]
    cases env.decodeLights resp.body <;> rfl

/-- C2 (amended): on a bridge with first address `ip` and for a valid index
`i`, `ToggleLight` hands exactly one request to the HTTP layer, a `PUT` to
`https://ip:Port/api/Username/lights/(i+1)/state` with `i+1` in decimal;
`ChangeLight` hands over exactly that request for every state the JSON
encoder accepts and none for a state it rejects; `FetchLights` hands over
exactly one `GET` to `https://ip:Port/api/Username/lights`; and replacing
the addresses after the first changes none of these requests. -/
theorem requests_target_first_address (env : Env) (b : HueBridge) (ip : IP) (rest : List IP)
    (hip : b.IPs = ip :: rest) (i : Int) (h0 : 0 ≤ i) (hi : i < b.Lights.length)
    (hlen : (b.Lights.length : Int) < intBound) (on_ : Bool) (s : LightState) :
    (ToggleLight env b i on_).trace
        = [.http ⟨"PUT", stateURL ip b.Port b.Username (i.toNat + 1), jsonHeader,
            renderObject env.fmtFloat [("on", .bool on_)]⟩]
    ∧ (∀ o, s.toJSON = .ok o → (ChangeLight env b i s).trace
        = [.http ⟨"PUT", stateURL ip b.Port b.Username (i.toNat + 1), jsonHeader,
            renderObject env.fmtFloat o⟩])
    ∧ (∀ e, s.toJSON = .error e → (ChangeLight env b i s).trace = [])
    ∧ (FetchLights env b).trace
        = [.http ⟨"GET", lightsURL ip b.Port b.Username, jsonHeader, ""⟩]
    ∧ (∀ others : List IP,
        (ToggleLight env { b with IPs := ip :: others } i on_).trace
            = (ToggleLight env b i on_).trace
        ∧ (ChangeLight env { b with IPs := ip :: others } i s).trace
            = (ChangeLight env b i s).trace
        ∧ (FetchLights env { b with IPs := ip :: others }).trace
            = (FetchLights env b).trace) := by
  have hv := valid_of_bounds _ i h0 hi hlen
  refine ⟨?_, ?_, ?_, FetchLights_trace env b ip rest hip, ?_⟩
  · rw [ToggleLight_run env b ip rest hip i h0 hi hlen]
  · intro o ho
    rw [ChangeLight_run env b ip rest hip i h0 hi hlen s o ho]
  · intro e he
    rw [ChangeLight_valid_error env b i s hv e he]
  · intro others
    refine ⟨?_, ?_, ?_⟩
    · rw [ToggleLight_run env b ip rest hip i h0 hi hlen,
        ToggleLight_run env { b with IPs := ip :: others } ip others rfl i h0 hi hlen]
    · cases hj : s.toJSON with
      | error e =>
        rw [ChangeLight_valid_error env b i s hv e hj,
          ChangeLight_valid_error env { b with IPs := ip :: others } i s hv e hj]
      | ok o =>
        rw [ChangeLight_run env b ip rest hip i h0 hi hlen s o hj,
          ChangeLight_run env { b with IPs := ip :: others } ip others rfl i h0 hi hlen s o hj]
    · rw [FetchLights_trace env b ip rest hip,
        FetchLights_trace env { b with IPs := ip :: others } ip others rfl]

/-- Witness for C2 on the bridge at `10.0.0.5:443` with credential `abc123`. -/
theorem requests_target_first_address_witness :
    (sampleBridge.IPs = ⟨[10, 0, 0, 5]⟩ :: [⟨[192, 168, 1, 2]⟩] ∧ (0 : Int) ≤ 0
      ∧ (0 : Int) < sampleBridge.Lights.length
      ∧ (sampleBridge.Lights.length : Int) < intBound)
    ∧ (ToggleLight (sampleEnv []) sampleBridge 0 true).trace
        = [.http ⟨"PUT", "https://10.0.0.5:443/api/abc123/lights/1/state",
            [("Content-Type", "application/json")], "\x7b\"on\":true\x7d"⟩]
    ∧ (FetchLights (sampleEnv []) sampleBridge).trace
        = [.http ⟨"GET", "https://10.0.0.5:443/api/abc123/lights",
            [("Content-Type", "application/json")], ""⟩] :=
  have h := requests_target_first_address (sampleEnv []) sampleBridge ⟨[10, 0, 0, 5]⟩
    [⟨[192, 168, 1, 2]⟩] rfl 0 (by decide) (by decide) (by decide) true LightState.zero
  ⟨⟨rfl, by decide, by decide, by decide⟩, h.1.trans (by decide), h.2.2.2.1.trans (by decide)⟩

/-- Counterexample to C2 as stated: the bridge has an address and the index
is valid, yet `ChangeLight` issues no request at all, because the encoder
rejects the infinity in `XY` and the call returns that error. -/
theorem change_inf_issues_no_request :
    sampleBridge.IPs = ⟨[10, 0, 0, 5]⟩ :: [⟨[192, 168, 1, 2]⟩]
    ∧ (0 : Int) ≤ 0 ∧ (0 : Int) < sampleBridge.Lights.length
    ∧ (ChangeLight (sampleEnv []) sampleBridge 0 stateWithInf).trace = []
    ∧ (ChangeLight (sampleEnv []) sampleBridge 0 stateWithInf).out
        = .ret (.error (.unsupportedValue "+Inf")) :=
  ⟨rfl, by decide, by decide, by decide, rfl⟩

theorem toJSON_only_on (on_ : Bool) :
    ({ LightState.zero with On := some on_ } : LightState).toJSON = .ok [("on", .bool on_)] :=
  rfl

theorem render_on (fmtFloat : Float64 → String) (on_ : Bool) :
    renderObject fmtFloat [("on", .bool on_)]
      = if on_ then "\x7b\"on\":true\x7d" else "\x7b\"on\":false\x7d" := by
  cases on_ <;> rfl

theorem ToggleLight_eq_ChangeLight (env : Env) (b : HueBridge) (i : Int) (on_ : Bool) :
    ToggleLight env b i on_ = ChangeLight env b i { LightState.zero with On := some on_ } := by
  by_cases h : wrapInt (i + 1) > b.Lights.length ∨ wrapInt (i + 1) < 1
  · rw [ToggleLight_invalid env b i on_ h, ChangeLight_invalid env b i _ h]
  · rw [ToggleLight_valid env b i on_ h,
      ChangeLight_valid_ok env b i _ h _ (toJSON_only_on on_)]

/-- C7: for a valid index, the one request of `ToggleLight(i, on)` has the
body `{"on":true}` or `{"on":false}` according to `on`, and the whole call
(request issued, bytes of the body, result) coincides with
`ChangeLight(i, s)` for the state `s` in which only `On` is set, to `on`. -/
theorem toggle_is_change_on (env : Env) (b : HueBridge) (ip : IP) (rest : List IP)
    (hip : b.IPs = ip :: rest) (i : Int) (h0 : 0 ≤ i) (hi : i < b.Lights.length)
    (hlen : (b.Lights.length : Int) < intBound) (on_ : Bool) :
    (ToggleLight env b i on_).trace
        = [.http ⟨"PUT", stateURL ip b.Port b.Username (i.toNat + 1), jsonHeader,
            if on_ then "\x7b\"on\":true\x7d" else "\x7b\"on\":false\x7d"⟩]
    ∧ (ChangeLight env b i { LightState.zero with On := some on_ }).trace
        = (ToggleLight env b i on_).trace
    ∧ ChangeLight env b i { LightState.zero with On := some on_ } = ToggleLight env b i on_ := by
  refine ⟨?_, ?_, (ToggleLight_eq_ChangeLight env b i on_).symm⟩
  · rw [ToggleLight_run env b ip rest hip i h0 hi hlen, render_on]
  · rw [ToggleLight_eq_ChangeLight env b i on_]

/-- Witness for C7: `ToggleLight(0, false)` on the sample bridge. -/
theorem toggle_is_change_on_witness :
    (sampleBridge.IPs = ⟨[10, 0, 0, 5]⟩ :: [⟨[192, 168, 1, 2]⟩] ∧ (0 : Int) ≤ 0
      ∧ (0 : Int) < sampleBridge.Lights.length
      ∧ (sampleBridge.Lights.length : Int) < intBound)
    ∧ (ChangeLight (sampleEnv []) sampleBridge 0 { LightState.zero with On := some false }).trace
        = [.http ⟨"PUT", "https://10.0.0.5:443/api/abc123/lights/1/state",
            [("Content-Type", "application/json")], "\x7b\"on\":false\x7d"⟩] :=
  have h := toggle_is_change_on (sampleEnv []) sampleBridge ⟨[10, 0, 0, 5]⟩
    [⟨[192, 168, 1, 2]⟩] rfl 0 (by decide) (by decide) (by decide) false
  ⟨⟨rfl, by decide, by decide, by decide⟩, (h.2.1.trans h.1).trans (by decide)⟩

theorem find_none_of_all {α : Type} (p : α → Bool) (xs : List α) (h : xs.all p = true) :
    xs.find? (fun a => !p a) = none := by
  rw [List.find?_eq_none]
  intro a ha
  have := List.all_eq_true.mp h a ha
  simp [this]

theorem find_some_of_not_all {α : Type} (p : α → Bool) (xs : List α) (h : xs.all p = false) :
    ∃ a, xs.find? (fun a => !p a) = some a := by
  cases hf : xs.find? (fun a => !p a) with
  | some a => exact ⟨a, rfl⟩
  | none =>
    exfalso
    rw [List.find?_eq_none] at hf
    have : xs.all p = true := List.all_eq_true.mpr fun a ha => by simpa using hf a ha
    rw [this] at h
    exact Bool.noConfusion h

theorem toJSON_of_encodable (s : LightState) (h : s.encodable = true) :
    s.toJSON = .ok (s.members (optMember "xy" (s.XY.map sliceJSON))) := by
  rw [LightState.toJSON_eq]
  cases hxy : s.XY with
  | none => rfl
  | some sl =>
    cases sl with
    | none => rfl
    | some xs =>
      have hall : xs.all Float64.isFinite = true := by simpa [LightState.encodable, hxy] using h
      simp only [omitemptyPtr, encodeFloatSlice, find_none_of_all _ xs hall]
      rfl

theorem toJSON_of_not_encodable (s : LightState) (h : s.encodable = false) :
    ∃ w, s.toJSON = .error (.unsupportedValue w) := by
  rw [LightState.toJSON_eq]
  cases hxy : s.XY with
  | none => simp [LightState.encodable, hxy] at h
  | some sl =>
    cases sl with
    | none => simp [LightState.encodable, hxy] at h
    | some xs =>
      have hall : xs.all Float64.isFinite = false := by
        simpa [LightState.encodable, hxy] using h
      obtain ⟨bad, hbad⟩ := find_some_of_not_all _ xs hall
      exact ⟨bad.nonFiniteName, by simp only [omitemptyPtr, encodeFloatSlice, hbad]; rfl⟩

theorem lookup_optMember_ne (k key : String) (v : Option JValue) (rest : JObject)
    (h : (k == key) = false) : List.lookup k (optMember key v ++ rest) = List.lookup k rest := by
  cases v with
  | none => rfl
  | some x => simp [optMember, List.lookup, h]

theorem lookup_optMember_eq (k : String) (v : Option JValue) (rest : JObject)
    (h : List.lookup k rest = none) : List.lookup k (optMember k v ++ rest) = v := by
  cases v with
  | none => simpa [optMember] using h
  | some x => simp [optMember, List.lookup]

theorem lookup_optMember_last (k : String) (v : Option JValue) :
    List.lookup k (optMember k v) = v := by
  cases v with
  | none => rfl
  | some x => simp [optMember, List.lookup]

theorem lookup_optMember_last_ne (k key : String) (v : Option JValue)
    (h : (k == key) = false) : List.lookup k (optMember key v) = none := by
  cases v with
  | none => rfl
  | some x => simp [optMember, List.lookup, h]

theorem members_lookup (s : LightState) (xy : Option JValue) :
    let o := s.members (optMember "xy" xy)
    List.lookup "on" o = s.On.map .bool
    ∧ List.lookup "bri" o = s.Brightness.map (fun n => .int (Int.ofNat n))
    ∧ List.lookup "hue" o = s.Hue.map (fun n => .int (Int.ofNat n))
    ∧ List.lookup "sat" o = s.Saturation.map (fun n => .int (Int.ofNat n))
    ∧ List.lookup "effect" o = s.Effect.map jsonString
    ∧ List.lookup "xy" o = xy
    ∧ List.lookup "ct" o = s.ColorTemp.map (fun n => .int (Int.ofNat n))
    ∧ List.lookup "alert" o = s.Alert.map jsonString
    ∧ List.lookup "colormode" o = s.ColorMode.map jsonString
    ∧ List.lookup "mode" o = s.Mode.map jsonString
    ∧ List.lookup "reachable" o = s.Reachable.map .bool := by
  simp only [LightState.members, List.append_assoc]
  refine ⟨?_, ?_, ?_, ?_, ?_, ?_, ?_, ?_, ?_, ?_, ?_⟩ <;>
    simp +decide only [lookup_optMember_ne, lookup_optMember_eq, lookup_optMember_last,
      lookup_optMember_last_ne]

theorem optMember_keys_sublist (k : String) (v : Option JValue) :
    ((optMember k v).map Prod.fst).Sublist [k] := by
  cases v with
  | none => exact List.nil_sublist _
  | some x => exact List.Sublist.refl _

theorem members_keys_sublist (s : LightState) (xy : Option JValue) :
    ((s.members (optMember "xy" xy)).map Prod.fst).Sublist lightStateKeys := by
  have hk : lightStateKeys = ["on"] ++ ["bri"] ++ ["hue"] ++ ["sat"] ++ ["effect"] ++ ["xy"]
      ++ ["ct"] ++ ["alert"] ++ ["colormode"] ++ ["mode"] ++ ["reachable"] := rfl
  rw [hk]
  simp only [LightState.members, List.map_append]
  repeat first
    | exact optMember_keys_sublist _ _
    | apply List.Sublist.append

/-- C3 (amended): for a valid index on a bridge with an address, and every
`LightState` whose `xy` slice, if set, has only finite entries, `ChangeLight`
transmits exactly one JSON object; it has a member under the key of a field
exactly when the field is set, no other keys and no key twice. The value is
the value the field points to, for a string field coerced to valid UTF-8:
every byte outside a well-formed sequence is replaced by U+FFFD, so the
string is transmitted unchanged exactly when it is valid UTF-8. When the
slice holds a NaN or an infinity, the encoder fails, `ChangeLight` returns
that error and transmits nothing. -/
theorem change_payload_fields (env : Env) (b : HueBridge) (ip : IP) (rest : List IP)
    (hip : b.IPs = ip :: rest) (i : Int) (h0 : 0 ≤ i) (hi : i < b.Lights.length)
    (hlen : (b.Lights.length : Int) < intBound) (s : LightState) :
    (s.encodable = true → ∃ o : JObject,
      (ChangeLight env b i s).trace
          = [.http ⟨"PUT", stateURL ip b.Port b.Username (i.toNat + 1), jsonHeader,
              renderObject env.fmtFloat o⟩]
      ∧ List.lookup "on" o = s.On.map .bool
      ∧ List.lookup "bri" o = s.Brightness.map (fun n => .int (Int.ofNat n))
      ∧ List.lookup "hue" o = s.Hue.map (fun n => .int (Int.ofNat n))
      ∧ List.lookup "sat" o = s.Saturation.map (fun n => .int (Int.ofNat n))
      ∧ List.lookup "effect" o = s.Effect.map jsonString
      ∧ List.lookup "xy" o = s.XY.map sliceJSON
      ∧ List.lookup "ct" o = s.ColorTemp.map (fun n => .int (Int.ofNat n))
      ∧ List.lookup "alert" o = s.Alert.map jsonString
      ∧ List.lookup "colormode" o = s.ColorMode.map jsonString
      ∧ List.lookup "mode" o = s.Mode.map jsonString
      ∧ List.lookup "reachable" o = s.Reachable.map .bool
      ∧ (o.map Prod.fst).Sublist lightStateKeys
      ∧ (∀ g ∈ s.strings, (jsonString g).goString = some (coerceUTF8 g)
          ∧ (validUTF8 g = true → (jsonString g).goString = some g))
      ∧ (∀ n, s = { LightState.zero with Brightness := some n } →
          o = [("bri", .int (Int.ofNat n))])
      ∧ (s = LightState.zero → o = []))
    ∧ (s.encodable = false →
      (ChangeLight env b i s).trace = []
      ∧ ∃ w, (ChangeLight env b i s).out = .ret (.error (.unsupportedValue w))) := by
  have hv := valid_of_bounds _ i h0 hi hlen
  constructor
  · intro he
    refine ⟨s.members (optMember "xy" (s.XY.map sliceJSON)), ?_, ?_⟩
    · rw [ChangeLight_run env b ip rest hip i h0 hi hlen s _ (toJSON_of_encodable s he)]
    · have hl := members_lookup s (s.XY.map sliceJSON)
      exact ⟨hl.1, hl.2.1, hl.2.2.1, hl.2.2.2.1, hl.2.2.2.2.1, hl.2.2.2.2.2.1,
        hl.2.2.2.2.2.2.1, hl.2.2.2.2.2.2.2.1, hl.2.2.2.2.2.2.2.2.1, hl.2.2.2.2.2.2.2.2.2.1,
        hl.2.2.2.2.2.2.2.2.2.2, members_keys_sublist s _,
        fun g _ => ⟨rfl, fun hg => by
          show some (coerceUTF8 g) = some g
          rw [coerceUTF8_of_valid g hg]⟩,
        fun n hs => by subst hs; rfl, fun hs => by subst hs; rfl⟩
  · intro he
    obtain ⟨w, hw⟩ := toJSON_of_not_encodable s he
    rw [ChangeLight_valid_error env b i s hv _ hw]
    exact ⟨rfl, w, rfl⟩

/-- Witness for C3: a state in which `On`, `Brightness` and `Effect` are set
to their zero values, one in which only `Brightness` is set, and the state
with no field set. -/
theorem change_payload_fields_witness :
    (sampleBridge.IPs = ⟨[10, 0, 0, 5]⟩ :: [⟨[192, 168, 1, 2]⟩] ∧ (0 : Int) ≤ 0
      ∧ (0 : Int) < sampleBridge.Lights.length
      ∧ (sampleBridge.Lights.length : Int) < intBound)
    ∧ (∃ o : JObject,
        (ChangeLight (sampleEnv []) sampleBridge 0
            { LightState.zero with On := some false, Brightness := some 0,
                                   Effect := some [] }).trace
          = [.http ⟨"PUT", stateURL ⟨[10, 0, 0, 5]⟩ 443 "abc123" 1, jsonHeader,
              renderObject (sampleEnv []).fmtFloat o⟩]
        ∧ List.lookup "on" o = some (.bool false) ∧ List.lookup "bri" o = some (.int 0)
        ∧ List.lookup "effect" o = some (.str []) ∧ List.lookup "hue" o = none)
    ∧ (ChangeLight (sampleEnv []) sampleBridge 0
          { LightState.zero with On := some false, Brightness := some 0,
                                 Effect := some [] }).trace
        = [.http ⟨"PUT", "https://10.0.0.5:443/api/abc123/lights/1/state",
            [("Content-Type", "application/json")],
            "\x7b\"on\":false,\"bri\":0,\"effect\":\"\"\x7d"⟩]
    ∧ (ChangeLight (sampleEnv []) sampleBridge 0
          { LightState.zero with Brightness := some 0 }).trace
        = [.http ⟨"PUT", "https://10.0.0.5:443/api/abc123/lights/1/state",
            [("Content-Type", "application/json")], "\x7b\"bri\":0\x7d"⟩]
    ∧ (ChangeLight (sampleEnv []) sampleBridge 0 LightState.zero).trace
        = [.http ⟨"PUT", "https://10.0.0.5:443/api/abc123/lights/1/state",
            [("Content-Type", "application/json")], "\x7b\x7d"⟩] :=
  have h := (change_payload_fields (sampleEnv []) sampleBridge ⟨[10, 0, 0, 5]⟩
    [⟨[192, 168, 1, 2]⟩] rfl 0 (by decide) (by decide) (by decide)
    { LightState.zero with On := some false, Brightness := some 0, Effect := some [] }).1 rfl
  ⟨⟨rfl, by decide, by decide, by decide⟩,
    h.elim fun o ho => ⟨o, ho.1, ho.2.1, ho.2.2.1, ho.2.2.2.2.2.1, ho.2.2.2.1⟩,
    by decide, by decide, by decide⟩

/-- Counterexample to C3 as stated, at two inputs with a valid index. With
`On` set and a NaN in `XY` the encoder fails and no JSON object is
transmitted, although fields are set. With `Effect` set to the bytes
`a`, `0xFF`, `b` the object is transmitted, but the value under `effect` is
not the string the field points to: the invalid byte went out as the escape
for U+FFFD, and the value decodes to five bytes, not to the three. -/
theorem change_nan_transmits_nothing :
    sampleBridge.IPs ≠ [] ∧ (0 : Int) < sampleBridge.Lights.length
    ∧ stateWithNaN.On = some true ∧ stateWithNaN.XY = some (some [Float64.nan])
    ∧ (ChangeLight (sampleEnv []) sampleBridge 0 stateWithNaN).trace = []
    ∧ (ChangeLight (sampleEnv []) sampleBridge 0 stateWithNaN).out
        = .ret (.error (.unsupportedValue "NaN"))
    ∧ lightStateBadEffect.Effect = some [0x61, 0xFF, 0x62]
    ∧ (ChangeLight (sampleEnv []) sampleBridge 0 lightStateBadEffect).trace
        = [.http ⟨"PUT", "https://10.0.0.5:443/api/abc123/lights/1/state",
            [("Content-Type", "application/json")], "\x7b\"effect\":\"a\\ufffdb\"\x7d"⟩]
    ∧ (jsonString [0x61, 0xFF, 0x62]).goString = some [0x61, 0xEF, 0xBF, 0xBD, 0x62]
    ∧ (jsonString [0x61, 0xFF, 0x62]).goString ≠ some [0x61, 0xFF, 0x62] :=
  ⟨by decide, by decide, rfl, rfl, by decide, rfl, rfl, by decide, by decide, by decide⟩

theorem appendLights_eq (visited : List (String × Light)) (acc : List Light) :
    appendLights visited acc = acc ++ visited.map Prod.snd := by
  induction visited generalizing acc with
  | nil => simp [appendLights]
  | cons kv rest ih =>
    have : appendLights (kv :: rest) acc = appendLights rest (acc ++ [kv.2]) := rfl
    rw [this, ih]
    simp

theorem FetchLights_send_error (env : Env) (b : HueBridge) (ip : IP) (rest : List IP)
    (hip : b.IPs = ip :: rest) (x : ExtError) (hs : env.send (lightsRequest ip b) = .error x) :
    FetchLights env b = ⟨.ret (some (.external x)), b, [.http (lightsRequest ip b)]⟩ := by
  unfold FetchLights
  simp only [makeAPIRequest_cons env b ip rest hip, lights_url_eq]
  unfold lightsRequest at hs
  rw [hs]
  rfl

theorem FetchLights_decode_error (env : Env) (b : HueBridge) (ip : IP) (rest : List IP)
    (hip : b.IPs = ip :: rest) (resp : Response) (x : ExtError)
    (hs : env.send (lightsRequest ip b) = .ok resp)
    (hd : env.decodeLights resp.body = .error x) :
    FetchLights env b = ⟨.ret (some (.external x)), b, [.http (lightsRequest ip b)]⟩ := by
  unfold FetchLights
  simp only [makeAPIRequest_cons env b ip rest hip, lights_url_eq]
  unfold lightsRequest at hs
  rw [hs]
  simp only [liftExt, hd]
  rfl

theorem FetchLights_ok (env : Env) (b : HueBridge) (ip : IP) (rest : List IP)
    (hip : b.IPs = ip :: rest) (resp : Response) (m : GoMap Light)
    (hs : env.send (lightsRequest ip b) = .ok resp)
    (hd : env.decodeLights resp.body = .ok m) :
    FetchLights env b = ⟨.ret none, { b with Lights := (env.rangeOrder m).map Prod.snd },
      [.http (lightsRequest ip b)]⟩ := by
  unfold FetchLights
  simp only [makeAPIRequest_cons env b ip rest hip, lights_url_eq]
  unfold lightsRequest at hs
  rw [hs]
  simp only [liftExt, hd, appendLights_eq, List.nil_append]
  rfl

theorem FetchLights_nil (env : Env) (b : HueBridge) (hip : b.IPs = []) :
    FetchLights env b = ⟨.panic (.runtime "index out of range [0] with length 0"), b, []⟩ := by
  unfold FetchLights
  simp only [makeAPIRequest_nil env b hip]

/-- C4: when the request of `FetchLights` is answered and the body decodes
to a mapping `m`, the call succeeds and the cached `Lights` has as many
elements as `m` has entries and is a permutation of the values of `m`, in
the order the map is visited, whatever that order is; the result is the
same for every previous content of `Lights`, and no other field changes. -/
theorem fetch_replaces_cache (env : Env) (b : HueBridge) (ip : IP) (rest : List IP)
    (hip : b.IPs = ip :: rest) (resp : Response) (m : GoMap Light)
    (hs : env.send (lightsRequest ip b) = .ok resp)
    (hd : env.decodeLights resp.body = .ok m) :
    (FetchLights env b).out = .ret none
    ∧ (FetchLights env b).state.Lights.length = m.entries.length
    ∧ (FetchLights env b).state.Lights.Perm (m.entries.map Prod.snd)
    ∧ (FetchLights env b).state.Lights = (env.rangeOrder m).map Prod.snd
    ∧ (∀ previous : List Light,
        (FetchLights env { b with Lights := previous }).state = (FetchLights env b).state)
    ∧ (FetchLights env b).state = { b with Lights := (FetchLights env b).state.Lights } := by
  have hperm : ((env.rangeOrder m).map Prod.snd).Perm (m.entries.map Prod.snd) :=
    (env.rangeOrder_perm m).map Prod.snd
  rw [FetchLights_ok env b ip rest hip resp m hs hd]
  refine ⟨rfl, ?_, hperm, rfl, ?_, rfl⟩
  · simpa using hperm.length_eq
  · intro previous
    rw [FetchLights_ok env { b with Lights := previous } ip rest hip resp m hs hd]

/-- Witness for C4: the two-entry mapping, visited in reverse key order. -/
theorem fetch_replaces_cache_witness :
    (sampleBridge.IPs = ⟨[10, 0, 0, 5]⟩ :: [⟨[192, 168, 1, 2]⟩]
      ∧ (sampleEnv []).send (lightsRequest ⟨[10, 0, 0, 5]⟩ sampleBridge) = .ok ⟨200, ""⟩
      ∧ (sampleEnv []).decodeLights (Response.mk 200 "").body = .ok sampleMap)
    ∧ (FetchLights (sampleEnv []) sampleBridge).state.Lights
        = [sampleLight "Desk", sampleLight "Lamp"]
    ∧ (FetchLights (sampleEnv []) sampleBridge).state.Lights.length = 2 :=
  have h := fetch_replaces_cache (sampleEnv []) sampleBridge ⟨[10, 0, 0, 5]⟩
    [⟨[192, 168, 1, 2]⟩] rfl ⟨200, ""⟩ sampleMap rfl rfl
  ⟨⟨rfl, rfl, rfl⟩, h.2.2.2.1.trans (by decide), h.2.1.trans (by decide)⟩

/-- C6: a call of `FetchLights` that does not succeed leaves the bridge as
it was; when the request fails the call returns the transport error, and
when the body does not decode it returns the decoder error. -/
theorem fetch_failure_keeps_bridge (env : Env) (b : HueBridge) :
    ((FetchLights env b).out ≠ .ret none → (FetchLights env b).state = b)
    ∧ (∀ (ip : IP) (rest : List IP), b.IPs = ip :: rest →
        (∀ x, env.send (lightsRequest ip b) = .error x →
          (FetchLights env b).out = .ret (some (.external x)) ∧ (FetchLights env b).state = b)
        ∧ (∀ resp x, env.send (lightsRequest ip b) = .ok resp →
            env.decodeLights resp.body = .error x →
          (FetchLights env b).out = .ret (some (.external x))
            ∧ (FetchLights env b).state = b)) := by
  constructor
  · intro hne
    cases hip : b.IPs with
    | nil => rw [FetchLights_nil env b hip]
    | cons ip rest =>
      cases hs : env.send (lightsRequest ip b) with
      | error x => rw [FetchLights_send_error env b ip rest hip x hs]
      | ok resp =>
        cases hd : env.decodeLights resp.body with
        | error x => rw [FetchLights_decode_error env b ip rest hip resp x hs hd]
        | ok m =>
          rw [FetchLights_ok env b ip rest hip resp m hs hd] at hne
          exact absurd rfl hne
  · intro ip rest hip
    constructor
    · intro x hs
      rw [FetchLights_send_error env b ip rest hip x hs]
      exact ⟨rfl, rfl⟩
    · intro resp x hs hd
      rw [FetchLights_decode_error env b ip rest hip resp x hs hd]
      exact ⟨rfl, rfl⟩

/-- Witness for C6: a timed-out request and an undecodable body. -/
theorem fetch_failure_keeps_bridge_witness :
    ((FetchLights timeoutEnv sampleBridge).out
        = .ret (some (.external ⟨"context deadline exceeded"⟩))
      ∧ (FetchLights timeoutEnv sampleBridge).state = sampleBridge)
    ∧ ((FetchLights garbageEnv sampleBridge).out
        = .ret (some (.external ⟨"unexpected end of JSON input"⟩))
      ∧ (FetchLights garbageEnv sampleBridge).state = sampleBridge) :=
  ⟨((fetch_failure_keeps_bridge timeoutEnv sampleBridge).2 ⟨[10, 0, 0, 5]⟩
      [⟨[192, 168, 1, 2]⟩] rfl).1 ⟨"context deadline exceeded"⟩ rfl,
    ((fetch_failure_keeps_bridge garbageEnv sampleBridge).2 ⟨[10, 0, 0, 5]⟩
      [⟨[192, 168, 1, 2]⟩] rfl).2 ⟨200, ""⟩
      ⟨"unexpected end of JSON input"⟩ rfl rfl⟩

/-- C8: on a controller whose resolver is initialised, when the browse
starts and yields the finite list `records` before it closes, `SearchHue`
returns the error `not found` exactly when `records` is empty, and otherwise
returns the bridge built from the first record alone, whatever follows it;
when the browse fails to start, `SearchHue` returns that error. -/
theorem search_takes_first_record (m : mDNSController) (r : Resolver)
    (hr : m.Resolver = some r) :
    (∀ records, r.Browse "_hue._tcp" "local." = .ok records →
      ((SearchHue m).out = .ret (.error (.errorsNew "not found")) ↔ records = [])
      ∧ (∀ first others, records = first :: others →
          (SearchHue m).out = .ret (.ok { HueBridge.zero with
            IPs := first.AddrIPv4, Instance := first.Instance, Port := first.Port,
            Text := first.Text })))
    ∧ (∀ x, r.Browse "_hue._tcp" "local." = .error x →
        (SearchHue m).out = .ret (.error (.external x))) := by
  constructor
  · intro records hb
    cases records with
    | nil =>
      simp [SearchHue, hr, hb, liftExt]
    | cons first others =>
      simp [SearchHue, hr, hb, liftExt]
  · intro x hb
    simp [SearchHue, hr, hb, liftExt]

/-- Witness for C8: two advertisers; the bridge is the first one. -/
theorem search_takes_first_record_witness :
    (mDNSController.mk (some (resolverOf [sampleEntry, otherEntry])) none).Resolver
        = some (resolverOf [sampleEntry, otherEntry])
    ∧ (SearchHue ⟨some (resolverOf [sampleEntry, otherEntry]), none⟩).out
        = .ret (.ok { HueBridge.zero with
            IPs := [⟨[10, 0, 0, 5]⟩], Instance := "Hue Bridge", Port := 443,
            Text := ["bridgeid=001788fffe000000"] }) :=
  ⟨rfl, ((search_takes_first_record ⟨some (resolverOf [sampleEntry, otherEntry]), none⟩
    (resolverOf [sampleEntry, otherEntry]) rfl).1 [sampleEntry, otherEntry] rfl).2
      sampleEntry [otherEntry] rfl⟩

theorem find_no_credential (env : Env) (h : HueBridge) (hu : env.getenv "HUE_USERNAME" = "") :
    find env h = ⟨.panic credentialPanic, h, []⟩ := by
  unfold find
  simp only [hu, if_true]
  rfl

theorem find_resolver_error (env : Env) (h : HueBridge) (hu : env.getenv "HUE_USERNAME" ≠ "")
    (x : ExtError) (hn : env.newResolver = .error x) :
    (find env h).out = .ret (some (.external x)) ∧ (find env h).trace = [.newResolver] := by
  unfold find
  simp [hu, Init, hn, liftExt]

theorem find_browse_error (env : Env) (h : HueBridge) (hu : env.getenv "HUE_USERNAME" ≠ "")
    (r : Resolver) (hn : env.newResolver = .ok r) (x : ExtError)
    (hb : r.Browse "_hue._tcp" "local." = .error x) :
    (find env h).out = .ret (some (.external x))
      ∧ (find env h).trace = [.newResolver, browseEvent] := by
  unfold find
  simp [hu, Init, hn, liftExt, SearchHue, hb, browseEvent]

theorem find_not_found (env : Env) (h : HueBridge) (hu : env.getenv "HUE_USERNAME" ≠ "")
    (r : Resolver) (hn : env.newResolver = .ok r)
    (hb : r.Browse "_hue._tcp" "local." = .ok []) :
    (find env h).out = .ret (some (.errorsNew "not found"))
      ∧ (find env h).trace = [.newResolver, browseEvent] := by
  unfold find
  simp [hu, Init, hn, liftExt, SearchHue, hb, browseEvent]

theorem find_found (env : Env) (h : HueBridge) (hu : env.getenv "HUE_USERNAME" ≠ "")
    (r : Resolver) (hn : env.newResolver = .ok r) (first : ServiceEntry)
    (others : List ServiceEntry) (hb : r.Browse "_hue._tcp" "local." = .ok (first :: others)) :
    find env h =
      (match (FetchLights env (discovered h (env.getenv "HUE_USERNAME") r first)).out with
        | .panic v =>
          ⟨.panic v, (FetchLights env (discovered h (env.getenv "HUE_USERNAME") r first)).state,
            [.newResolver, browseEvent]
              ++ (FetchLights env (discovered h (env.getenv "HUE_USERNAME") r first)).trace⟩
        | .ret (some err) =>
          ⟨.ret (some err),
            (FetchLights env (discovered h (env.getenv "HUE_USERNAME") r first)).state,
            [.newResolver, browseEvent]
              ++ (FetchLights env (discovered h (env.getenv "HUE_USERNAME") r first)).trace⟩
        | .ret none =>
          if (FetchLights env (discovered h (env.getenv "HUE_USERNAME") r first)).state.IPs.length
              < 1 then
            ⟨.ret (some (.errorsNew "no IPs found")),
              (FetchLights env (discovered h (env.getenv "HUE_USERNAME") r first)).state,
              [.newResolver, browseEvent]
                ++ (FetchLights env (discovered h (env.getenv "HUE_USERNAME") r first)).trace⟩
          else
            ⟨.ret none,
              (FetchLights env (discovered h (env.getenv "HUE_USERNAME") r first)).state,
              [.newResolver, browseEvent]
                ++ (FetchLights env (discovered h (env.getenv "HUE_USERNAME") r first)).trace⟩) := by
  unfold find
  simp only [hu, if_false, Init, hn, liftExt, SearchHue, hb, browseEvent, discovered,
    List.singleton_append, List.cons_append, List.nil_append]

theorem FetchLights_cases (env : Env) (b : HueBridge) :
    (b.IPs = [] ∧ (FetchLights env b).out = .panic indexPanic ∧ (FetchLights env b).trace = [])
    ∨ (b.IPs ≠ [] ∧ (∃ x, (FetchLights env b).out = .ret (some (.external x)))
        ∧ (FetchLights env b).state = b)
    ∨ (b.IPs ≠ [] ∧ (FetchLights env b).out = .ret none
        ∧ (FetchLights env b).state.IPs = b.IPs
        ∧ (FetchLights env b).state.Username = b.Username) := by
  cases hip : b.IPs with
  | nil =>
    left
    rw [FetchLights_nil env b hip]
    exact ⟨rfl, rfl, rfl⟩
  | cons ip rest =>
    right
    cases hs : env.send (lightsRequest ip b) with
    | error x =>
      left
      rw [FetchLights_send_error env b ip rest hip x hs]
      exact ⟨List.cons_ne_nil _ _, ⟨x, rfl⟩, rfl⟩
    | ok resp =>
      cases hd : env.decodeLights resp.body with
      | error x =>
        left
        rw [FetchLights_decode_error env b ip rest hip resp x hs hd]
        exact ⟨List.cons_ne_nil _ _, ⟨x, rfl⟩, rfl⟩
      | ok m =>
        right
        rw [FetchLights_ok env b ip rest hip resp m hs hd]
        exact ⟨List.cons_ne_nil _ _, rfl, hip, rfl⟩

theorem Setup_cases (env : Env) :
    (env.getenv "HUE_USERNAME" = "" ∧ (Setup env).out = .panic credentialPanic
        ∧ (Setup env).trace = [])
    ∨ (env.getenv "HUE_USERNAME" ≠ "" ∧ ∃ x, (Setup env).out = .ret (.error (.external x)))
    ∨ (env.getenv "HUE_USERNAME" ≠ "" ∧ (Setup env).out = .ret (.error (.errorsNew "not found")))
    ∨ (env.getenv "HUE_USERNAME" ≠ "" ∧ (Setup env).out = .panic indexPanic
        ∧ (Setup env).trace = [.newResolver, browseEvent])
    ∨ (env.getenv "HUE_USERNAME" ≠ "" ∧ ∃ hb, (Setup env).out = .ret (.ok hb) ∧ hb.IPs ≠ []
        ∧ hb.Username = env.getenv "HUE_USERNAME") := by
  by_cases hu : env.getenv "HUE_USERNAME" = ""
  · left
    simp only [Setup, find_no_credential env _ hu]
    exact ⟨hu, trivial, trivial⟩
  · right
    cases hn : env.newResolver with
    | error x =>
      left
      have h := find_resolver_error env HueBridge.zero hu x hn
      simp only [Setup, h.1]
      exact ⟨hu, x, rfl⟩
    | ok r =>
      cases hb : r.Browse "_hue._tcp" "local." with
      | error x =>
        left
        have h := find_browse_error env HueBridge.zero hu r hn x hb
        simp only [Setup, h.1]
        exact ⟨hu, x, rfl⟩
      | ok records =>
        cases records with
        | nil =>
          right; left
          have h := find_not_found env HueBridge.zero hu r hn hb
          simp only [Setup, h.1]
          exact ⟨hu, trivial⟩
        | cons first others =>
          have hf := find_found env HueBridge.zero hu r hn first others hb
          rcases FetchLights_cases env
              (discovered HueBridge.zero (env.getenv "HUE_USERNAME") r first)
            with ⟨_, ho, ht⟩ | ⟨_, ⟨x, ho⟩, _⟩ | ⟨hne, ho, hips, huser⟩
          · right; right; left
            rw [ho, ht] at hf
            simp only [Setup, hf]
            exact ⟨hu, trivial, rfl⟩
          · left
            rw [ho] at hf
            simp only [Setup, hf]
            exact ⟨hu, x, rfl⟩
          · right; right; right
            have hlen : ¬ (FetchLights env
                (discovered HueBridge.zero (env.getenv "HUE_USERNAME") r first)).state.IPs.length
                  < 1 := by
              rw [hips]
              cases hd : (discovered HueBridge.zero (env.getenv "HUE_USERNAME") r first).IPs with
              | nil => exact absurd hd hne
              | cons a l => simp
            rw [ho] at hf
            simp only [hlen, if_false] at hf
            simp only [Setup, hf]
            exact ⟨hu, _, rfl, by rw [hips]; exact hne, by rw [huser]; rfl⟩

/-- C9: with an empty credential `Setup` panics with the credential error
before the resolver is created, before any browse and before any request,
and so returns nothing; every bridge `Setup` returns carries the non-empty
credential as its `Username`. -/
theorem credential_checked_first (env : Env) :
    (env.getenv "HUE_USERNAME" = "" →
      (Setup env).out = .panic credentialPanic ∧ (Setup env).trace = [])
    ∧ (∀ hb, (Setup env).out = .ret (.ok hb) →
      hb.Username ≠ "" ∧ hb.Username = env.getenv "HUE_USERNAME") := by
  constructor
  · intro hu
    rcases Setup_cases env with h | h | h | h | h
    · exact ⟨h.2.1, h.2.2⟩
    all_goals exact absurd hu h.1
  · intro hb hout
    rcases Setup_cases env with h | ⟨_, x, h⟩ | ⟨_, h⟩ | ⟨_, h, _⟩ | ⟨hu, hb2, h, _, huser⟩
    · rw [h.2.1] at hout; exact Outcome.noConfusion hout
    · rw [h] at hout; simp at hout
    · rw [h] at hout; simp at hout
    · rw [h] at hout; exact Outcome.noConfusion hout
    · rw [h] at hout
      have : hb2 = hb := by
        injection hout with h1
        injection h1
      subst this
      exact ⟨by rw [huser]; exact hu, huser⟩

/-- Witness for C9: a world without the credential. -/
theorem credential_checked_first_witness :
    ({ sampleEnv [sampleEntry] with getenv := fun _ => "" } : Env).getenv "HUE_USERNAME" = ""
    ∧ (Setup { sampleEnv [sampleEntry] with getenv := fun _ => "" }).out
        = .panic (.error (.errorsNew "HUE_USERNAME environment variable not set"))
    ∧ (Setup { sampleEnv [sampleEntry] with getenv := fun _ => "" }).trace = [] :=
  have h := (credential_checked_first { sampleEnv [sampleEntry] with getenv := fun _ => "" }).1
    rfl
  ⟨rfl, h.1, h.2⟩

/-- C5 (evaluation of the code): `Setup` never returns the error
`no IPs found`; when the first record has no IPv4 address it panics with an
index out of range while building the URL of the first request, after the
browse and before any request. A bridge that `Setup` does return has at
least one address. -/
theorem setup_without_address_panics :
    (∀ env, (Setup env).out ≠ .ret (.error (.errorsNew "no IPs found")))
    ∧ (Setup (sampleEnv [entryNoIPs])).out
        = .panic (.runtime "index out of range [0] with length 0")
    ∧ (Setup (sampleEnv [entryNoIPs])).trace = [.newResolver, .browse "_hue._tcp" "local."]
    ∧ (∀ (env : Env) (r : Resolver) (first : ServiceEntry) (others : List ServiceEntry),
        env.getenv "HUE_USERNAME" ≠ "" → env.newResolver = .ok r →
        r.Browse "_hue._tcp" "local." = .ok (first :: others) → first.AddrIPv4 = [] →
        (Setup env).out = .panic (.runtime "index out of range [0] with length 0"))
    ∧ (∀ env hb, (Setup env).out = .ret (.ok hb) → hb.IPs ≠ []) := by
  refine ⟨?_, rfl, rfl, ?_, ?_⟩
  · intro env hout
    rcases Setup_cases env with h | ⟨_, x, h⟩ | ⟨_, h⟩ | ⟨_, h, _⟩ | ⟨_, hb2, h, _, _⟩
    · rw [h.2.1] at hout; exact Outcome.noConfusion hout
    · rw [h] at hout; simp at hout
    · rw [h] at hout; simp at hout
    · rw [h] at hout; exact Outcome.noConfusion hout
    · rw [h] at hout; simp at hout
  · intro env r first others hu hn hb hip
    have hf := find_found env HueBridge.zero hu r hn first others hb
    have hnil : (discovered HueBridge.zero (env.getenv "HUE_USERNAME") r first).IPs = [] := hip
    rw [FetchLights_nil env _ hnil] at hf
    simp only [Setup, hf]
  · intro env hb hout
    rcases Setup_cases env with h | ⟨_, x, h⟩ | ⟨_, h⟩ | ⟨_, h, _⟩ | ⟨_, hb2, h, hne, _⟩
    · rw [h.2.1] at hout; exact Outcome.noConfusion hout
    · rw [h] at hout; simp at hout
    · rw [h] at hout; simp at hout
    · rw [h] at hout; exact Outcome.noConfusion hout
    · rw [h] at hout
      have : hb2 = hb := by
        injection hout with h1
        injection h1
      subst this
      exact hne

theorem decodeUint_ofNat (field : String) (bound n old : Nat) (h : n < bound) :
    decodeUint field bound (.int (Int.ofNat n)) old = .ok n := by
  have h1 : (0 : Int) ≤ Int.ofNat n ∧ Int.ofNat n < (bound : Int) :=
    ⟨Int.ofNat_nonneg n, Int.ofNat_lt.mpr h⟩
  simp only [decodeUint, h1, and_self, if_true]
  rfl

theorem setMember_on (st : State) (b : Bool) :
    st.setMember ("on", .bool b) = .ok { st with On := b } := by
  simp +decide only [State.setMember, if_true, if_false, decodeBool]
  rfl

theorem setMember_bri (st : State) (n : Nat) (h : n < 256) :
    st.setMember ("bri", .int (Int.ofNat n)) = .ok { st with Brightness := n } := by
  simp +decide only [State.setMember, if_true, if_false, decodeUint_ofNat _ _ _ _ h]
  rfl

theorem setMember_hue (st : State) (n : Nat) (h : n < 65536) :
    st.setMember ("hue", .int (Int.ofNat n)) = .ok { st with Hue := n } := by
  simp +decide only [State.setMember, if_true, if_false, decodeUint_ofNat _ _ _ _ h]
  rfl

theorem setMember_sat (st : State) (n : Nat) (h : n < 256) :
    st.setMember ("sat", .int (Int.ofNat n)) = .ok { st with Saturation := n } := by
  simp +decide only [State.setMember, if_true, if_false, decodeUint_ofNat _ _ _ _ h]
  rfl

theorem setMember_effect (st : State) (g : GoString) :
    st.setMember ("effect", jsonString g) = .ok { st with Effect := coerceUTF8 g } := by
  simp +decide only [State.setMember, if_true, if_false, decodeString, jsonString]
  rfl

theorem setMember_xy (st : State) (sl : FloatSlice) :
    st.setMember ("xy", sliceJSON sl) = .ok { st with XY := sl } := by
  simp +decide only [State.setMember, if_true, if_false]
  cases sl <;> rfl

theorem setMember_ct (st : State) (n : Nat) (h : n < 65536) :
    st.setMember ("ct", .int (Int.ofNat n)) = .ok { st with ColorTemp := n } := by
  simp +decide only [State.setMember, if_true, if_false, decodeUint_ofNat _ _ _ _ h]
  rfl

theorem setMember_alert (st : State) (g : GoString) :
    st.setMember ("alert", jsonString g) = .ok { st with Alert := coerceUTF8 g } := by
  simp +decide only [State.setMember, if_true, if_false, decodeString, jsonString]
  rfl

theorem setMember_colormode (st : State) (g : GoString) :
    st.setMember ("colormode", jsonString g) = .ok { st with ColorMode := coerceUTF8 g } := by
  simp +decide only [State.setMember, if_true, if_false, decodeString, jsonString]
  rfl

theorem setMember_mode (st : State) (g : GoString) :
    st.setMember ("mode", jsonString g) = .ok { st with Mode := coerceUTF8 g } := by
  simp +decide only [State.setMember, if_true, if_false, decodeString, jsonString]
  rfl

theorem setMember_reachable (st : State) (b : Bool) :
    st.setMember ("reachable", .bool b) = .ok { st with Reachable := b } := by
  simp +decide only [State.setMember, if_true, if_false, decodeBool]
  rfl

theorem foldlM_step (s s2 : State) (kv : String × JValue) (rest : JObject)
    (h : s.setMember kv = .ok s2) :
    List.foldlM State.setMember s (kv :: rest) = List.foldlM State.setMember s2 rest := by
  rw [List.foldlM_cons, h]
  rfl

theorem fromJSON_ofState (st : State) (hb : st.Brightness < 256) (hs : st.Saturation < 256)
    (hh : st.Hue < 65536) (hc : st.ColorTemp < 65536) :
    State.fromJSON ((LightState.ofState st).members
      (optMember "xy" ((LightState.ofState st).XY.map sliceJSON))) = .ok st.coerced := by
  show List.foldlM State.setMember State.zero
    [("on", .bool st.On), ("bri", .int (Int.ofNat st.Brightness)),
      ("hue", .int (Int.ofNat st.Hue)), ("sat", .int (Int.ofNat st.Saturation)),
      ("effect", jsonString st.Effect), ("xy", sliceJSON st.XY),
      ("ct", .int (Int.ofNat st.ColorTemp)), ("alert", jsonString st.Alert),
      ("colormode", jsonString st.ColorMode), ("mode", jsonString st.Mode),
      ("reachable", .bool st.Reachable)] = .ok st.coerced
  rw [foldlM_step _ _ _ _ (setMember_on _ _), foldlM_step _ _ _ _ (setMember_bri _ _ hb),
    foldlM_step _ _ _ _ (setMember_hue _ _ hh), foldlM_step _ _ _ _ (setMember_sat _ _ hs),
    foldlM_step _ _ _ _ (setMember_effect _ _), foldlM_step _ _ _ _ (setMember_xy _ _),
    foldlM_step _ _ _ _ (setMember_ct _ _ hc), foldlM_step _ _ _ _ (setMember_alert _ _),
    foldlM_step _ _ _ _ (setMember_colormode _ _), foldlM_step _ _ _ _ (setMember_mode _ _),
    foldlM_step _ _ _ _ (setMember_reachable _ _)]
  rfl

theorem coerced_of_valid (st : State) (h : st.validStrings = true) : st.coerced = st := by
  simp only [State.validStrings, Bool.and_eq_true] at h
  obtain ⟨⟨⟨h1, h2⟩, h3⟩, h4⟩ := h
  simp only [State.coerced, coerceUTF8_of_valid _ h1, coerceUTF8_of_valid _ h2,
    coerceUTF8_of_valid _ h3, coerceUTF8_of_valid _ h4]

theorem encodable_ofState (st : State) : (LightState.ofState st).encodable = st.finiteXY := by
  unfold LightState.encodable State.finiteXY LightState.ofState
  cases st.XY <;> rfl

/-- C10 (amended): for every `State` within the ranges of its integer types
whose `XY` entries are all finite, encoding the `LightState` that has every
field set to the corresponding field of the `State` succeeds, and decoding
the resulting JSON object as a `State` gives the `State` with its string
fields coerced to valid UTF-8; this is the `State` itself when its string
fields are valid UTF-8. When `XY` holds a NaN or an infinity the encoder
fails and there is no JSON object. -/
theorem state_roundtrip (st : State) (hb : st.Brightness < 256) (hs : st.Saturation < 256)
    (hh : st.Hue < 65536) (hc : st.ColorTemp < 65536) :
    (st.finiteXY = true →
      ∃ o, (LightState.ofState st).toJSON = .ok o
        ∧ State.fromJSON o = .ok st.coerced
        ∧ (st.validStrings = true → State.fromJSON o = .ok st))
    ∧ (st.finiteXY = false →
      ∃ w, (LightState.ofState st).toJSON = .error (.unsupportedValue w)) := by
  constructor
  · intro hf
    refine ⟨_, toJSON_of_encodable _ (by rw [encodable_ofState]; exact hf),
      fromJSON_ofState st hb hs hh hc, fun hv => ?_⟩
    rw [fromJSON_ofState st hb hs hh hc, coerced_of_valid st hv]
  · intro hf
    exact toJSON_of_not_encodable _ (by rw [encodable_ofState]; exact hf)

/-- Witness for C10: a `State` with every field populated. -/
theorem state_roundtrip_witness :
    (stateFull.Brightness < 256 ∧ stateFull.Saturation < 256 ∧ stateFull.Hue < 65536
      ∧ stateFull.ColorTemp < 65536 ∧ stateFull.finiteXY = true
      ∧ stateFull.validStrings = true)
    ∧ ∃ o, (LightState.ofState stateFull).toJSON = .ok o ∧ State.fromJSON o = .ok stateFull :=
  ⟨⟨by decide, by decide, by decide, by decide, by decide, by decide⟩,
    ((state_roundtrip stateFull (by decide) (by decide) (by decide) (by decide)).1
      (by decide)).elim fun o ho => ⟨o, ho.1, ho.2.2 (by decide)⟩⟩

/-- Counterexample to C10 as stated, at two `State` values within all the
integer ranges. With a NaN in `XY` the encoder fails, so no JSON object
results and nothing is decoded back. With `Effect` equal to the bytes `a`,
`0xFF`, `b` the round trip succeeds but gives a different `State`: the
decoded `Effect` has the three bytes of U+FFFD in place of `0xFF`. -/
theorem roundtrip_fails_on_nan :
    (stateNaN.Brightness < 256 ∧ stateNaN.Saturation < 256 ∧ stateNaN.Hue < 65536
      ∧ stateNaN.ColorTemp < 65536)
    ∧ (LightState.ofState stateNaN).toJSON = .error (.unsupportedValue "NaN")
    ∧ ((LightState.ofState stateNaN).toJSON >>= State.fromJSON) ≠ .ok stateNaN
    ∧ (stateBadEffect.Brightness < 256 ∧ stateBadEffect.Saturation < 256
      ∧ stateBadEffect.Hue < 65536 ∧ stateBadEffect.ColorTemp < 65536
      ∧ stateBadEffect.finiteXY = true)
    ∧ ((LightState.ofState stateBadEffect).toJSON >>= State.fromJSON)
        = .ok { State.zero with Effect := [0x61, 0xEF, 0xBF, 0xBD, 0x62] }
    ∧ ((LightState.ofState stateBadEffect).toJSON >>= State.fromJSON) ≠ .ok stateBadEffect :=
  ⟨⟨by decide, by decide, by decide, by decide⟩, rfl, fun h => Except.noConfusion h,
    ⟨by decide, by decide, by decide, by decide, by decide⟩, rfl,
    fun h => absurd (congrArg (fun r => r.toOption.map State.Effect) h) (by decide)⟩

end Hue
